import Mathlib

/-!
# infinibox-csi-driver: volume provisioning orchestrators

A shallow embedding of `storage/nfscontroller.go` (one filesystem per volume)
and `storage/treeqcontroller.go` (one quota per volume inside a shared
filesystem), with the properties of their create / delete / expand workflows.

Conventions of the embedding

* Go `string` is `String`; byte-level algorithms run on the character list.
  The delimiters involved (`#`, `$$`, `-`, `/`, digits, signs) are ASCII, so
  splitting and parsing by character agrees with splitting and parsing by byte.
* Go `int64` is `Int`. No arithmetic on identifiers or capacities can
  overflow in the modelled code, except inside `strconv.ParseUint`, where the
  wrap-around is written out with `% 2 ^ 64`.
* Go `error` is `Option GoError` (`none` is `nil`); a pair `(value, error)` is
  a pair.
* Go `map[string]string` is `GoMap`, an association list.
* The backend gateway (`nfs.cs.api`, `nfs.cs.getNetworkSpaceIP`,
  `treeq.filesysService`) is a record of state-passing functions over an
  arbitrary backend state `σ`; every operation returns the list of gateway
  calls it made, in order.
-/

set_option autoImplicit false

namespace Infinibox

/-! ## Go runtime and standard library -/

/-- gRPC status codes used by the controllers (`google.golang.org/grpc/codes`). -/
inductive Codes
  | InvalidArgument
  | Unimplemented
  deriving DecidableEq, Repr

/-- The two failure kinds of `strconv`: `ErrSyntax` and `ErrRange`. -/
inductive NumErrKind
  | ErrSyntax
  | ErrRange
  deriving DecidableEq, Repr

/-- Go `error` values that occur: `errors.New(msg)`, `status.Error(code, msg)`
and `*strconv.NumError`. A backend failure is any such value. -/
inductive GoError
  | errorsNew (msg : String)
  | statusError (code : Codes) (msg : String)
  | numError (fn : String) (num : String) (kind : NumErrKind)
  deriving DecidableEq, Repr

/-- The method `Error()` of an error value. -/
def GoError.Error : GoError → String
  | .errorsNew msg => msg
  | .statusError .InvalidArgument msg => "rpc error: code = InvalidArgument desc = " ++ msg
  | .statusError .Unimplemented msg => "rpc error: code = Unimplemented desc = " ++ msg
  | .numError fn num .ErrSyntax => "strconv." ++ fn ++ ": parsing \"" ++ num ++ "\": invalid syntax"
  | .numError fn num .ErrRange => "strconv." ++ fn ++ ": parsing \"" ++ num ++ "\": value out of range"

/-- Go `map[string]string` (also used for `map[string]interface{}` whose
values are strings): an association list, first entry of a key wins. -/
structure GoMap where
  entries : List (String × String)
  deriving DecidableEq, Repr

/-- The expression `m[k]`: the value stored under `k`, or the zero value `""`. -/
def GoMap.get (m : GoMap) (k : String) : String :=
  match m.entries.lookup k with
  | some v => v
  | none => ""

/-- The statement `m[k] = v`. -/
def GoMap.set (m : GoMap) (k v : String) : GoMap :=
  if m.entries.any (fun p => p.1 == k) then
    ⟨m.entries.map (fun p => if p.1 == k then (k, v) else p)⟩
  else
    ⟨m.entries ++ [(k, v)]⟩

/-- The expression `len(m)`. -/
def GoMap.len (m : GoMap) : Nat := (m.entries.map Prod.fst).eraseDups.length

/-- The result of `make(map[string]string)`. -/
def GoMap.empty : GoMap := ⟨[]⟩

/-- Worker of `strings.Split` for a non-empty separator: `skip` counts the
characters of an already matched separator that are still to be dropped. -/
def splitGo (sep : List Char) : Nat → List Char → List (List Char)
  | _, [] => [[]]
  | skip + 1, _ :: cs => splitGo sep skip cs
  | 0, c :: cs =>
    if sep.isPrefixOf (c :: cs) then
      [] :: splitGo sep (sep.length - 1) cs
    else
      match splitGo sep 0 cs with
      | [] => [[c]]
      | f :: fs => (c :: f) :: fs

/-- Go `strings.Split(s, sep)`: the substrings between the occurrences of
`sep` (scanned left to right, not overlapping); an empty separator splits
after each character. -/
def stringsSplit (s sep : String) : List String :=
  if sep.data = [] then s.data.map (fun c => String.mk [c])
  else (splitGo sep.data 0 s.data).map String.mk

/-- Go `strings.HasPrefix(s, p)`. -/
def stringsHasPrefix (s p : String) : Bool := p.data.isPrefixOf s.data

/-- Worker of `strings.Contains`. -/
def containsGo (sub : List Char) : List Char → Bool
  | [] => sub.isEmpty
  | c :: cs => sub.isPrefixOf (c :: cs) || containsGo sub cs

/-- Go `strings.Contains(s, substr)`. -/
def stringsContains (s substr : String) : Bool := containsGo substr.data s.data

/-- Go `strings.Trim(s, cutset)`: strips leading and trailing characters that
occur in `cutset`; an empty cutset leaves `s` unchanged. -/
def stringsTrim (s cutset : String) : String :=
  if s.data = [] ∨ cutset.data = [] then s
  else String.mk (((s.data.dropWhile (fun c => cutset.data.contains c)).reverse.dropWhile
    (fun c => cutset.data.contains c)).reverse)

/-- Go `strings.ToUpper(s)` on ASCII letters (other characters are kept). -/
def stringsToUpper (s : String) : String := String.mk (s.data.map Char.toUpper)

/-- The constant `maxUint64`. -/
def maxUint64 : Nat := 2 ^ 64 - 1

/-- The loop of `strconv.ParseUint(s, 10, 64)` over the bytes of `s`, `n`
being the value accumulated so far. A byte that is not a decimal digit is a
syntax error (value 0); an overflow is a range error (value `maxUint64`). -/
def parseUintLoop : List Char → Nat → Nat × Option NumErrKind
  | [], n => (n, none)
  | c :: cs, n =>
    if '0' ≤ c ∧ c ≤ '9' then
      let d := c.toNat - '0'.toNat
      -- cutoff = maxUint64/10 + 1
      if n ≥ maxUint64 / 10 + 1 then (maxUint64, some .ErrRange)
      else
        let n10 := (n * 10) % 2 ^ 64
        let n1 := (n10 + d) % 2 ^ 64
        if n1 < n10 ∨ n1 > maxUint64 then (maxUint64, some .ErrRange)
        else parseUintLoop cs n1
    else (0, some .ErrSyntax)

/-- Go `strconv.ParseUint(s, 10, 64)`. -/
def ParseUint (s : List Char) : Nat × Option NumErrKind :=
  if s = [] then (0, some .ErrSyntax) else parseUintLoop s 0

/-- Go `strconv.ParseInt(s, 10, 64)`: an optional sign followed by decimal
digits. On a syntax error the value is 0; on a range error it is the nearest
representable value. -/
def ParseInt (s : String) : Int × Option GoError :=
  match s.data with
  | [] => (0, some (.numError "ParseInt" s .ErrSyntax))
  | c :: cs =>
    let neg := c = '-'
    let rest := if c = '+' ∨ c = '-' then cs else c :: cs
    match ParseUint rest with
    | (_, some .ErrSyntax) => (0, some (.numError "ParseInt" s .ErrSyntax))
    | (un, _) =>
      -- cutoff = 1 << 63
      if ¬ neg ∧ un ≥ 2 ^ 63 then ((2 : Int) ^ 63 - 1, some (.numError "ParseInt" s .ErrRange))
      else if neg ∧ un > 2 ^ 63 then (-(2 : Int) ^ 63, some (.numError "ParseInt" s .ErrRange))
      else if neg then (-(un : Int), none)
      else ((un : Int), none)

/-- The character of a decimal digit `d < 10`. -/
def digitChar (d : Nat) : Char := Char.ofNat ('0'.toNat + d)

/-- Decimal digits of `n`, most significant first; `fuel` bounds the number of
digits. -/
def formatUintFuel : Nat → Nat → List Char
  | 0, _ => []
  | fuel + 1, n =>
    if n < 10 then [digitChar n]
    else formatUintFuel fuel (n / 10) ++ [digitChar (n % 10)]

/-- Go `strconv.FormatInt(i, 10)`, which is also what `strconv.Itoa` and
`fmt.Sprint` produce for an integer: the decimal rendering, with a leading
`-` for a negative number. -/
def FormatInt (i : Int) : String :=
  if i < 0 then String.mk ('-' :: formatUintFuel (i.natAbs + 1) i.natAbs)
  else String.mk (formatUintFuel (i.natAbs + 1) i.natAbs)

/-- Go `strconv.ParseBool(str)` with its error discarded (`b, _ := ...`):
`false` for every string that is not one of the accepted spellings of true. -/
def ParseBool (str : String) : Bool :=
  str = "1" ∨ str = "t" ∨ str = "T" ∨ str = "TRUE" ∨ str = "true" ∨ str = "True"

/-- Worker of `path.Clean`: `stack` holds the kept path elements, last one
first. Empty elements and `.` are dropped, `..` removes the element before it,
is dropped at the root of a rooted path and is kept otherwise. -/
def cleanGo (rooted : Bool) : List (List Char) → List (List Char) → List (List Char)
  | [], stack => stack.reverse
  | comp :: rest, stack =>
    if comp = [] ∨ comp = ['.'] then cleanGo rooted rest stack
    else if comp = ['.', '.'] then
      match stack with
      | top :: below =>
        if top = ['.', '.'] then cleanGo rooted rest (comp :: stack)
        else cleanGo rooted rest below
      | [] => if rooted then cleanGo rooted rest [] else cleanGo rooted rest [comp]
    else cleanGo rooted rest (comp :: stack)

/-- Go `path.Clean(p)`: the shortest path name equivalent to `p`. -/
def pathClean (p : String) : String :=
  if p.data = [] then "."
  else
    let rooted := p.data.head? = some '/'
    let kept := cleanGo rooted (splitGo ['/'] 0 p.data) []
    let body := String.mk (List.intercalate ['/'] kept)
    if rooted then "/" ++ body
    else if body.data = [] then "."
    else body

/-- Go `path.Join(elem...)`: leading empty elements are ignored, the rest is
joined with slashes and cleaned; the result is empty when every element is. -/
def pathJoin (elem : List String) : String :=
  match elem.dropWhile (fun e => e.data.isEmpty) with
  | [] => ""
  | rest => pathClean (String.mk (List.intercalate ['/'] (rest.map String.data)))

/-! ## CSI request and response messages -/

namespace csi

/-- The message `csi.CapacityRange`. -/
structure CapacityRange where
  RequiredBytes : Int
  LimitBytes : Int
  deriving DecidableEq, Repr

/-- The chain `req.GetCapacityRange().GetRequiredBytes()`: the getters are
nil-safe, an absent range reads as 0. -/
def GetRequiredBytes (r : Option CapacityRange) : Int :=
  match r with
  | some c => c.RequiredBytes
  | none => 0

/-- The message `csi.VolumeContentSource`: a snapshot or a volume to clone. -/
inductive VolumeContentSource
  | snapshot (snapshotId : String)
  | volume (volumeId : String)
  deriving DecidableEq, Repr

/-- The message `csi.CreateVolumeRequest` (the volume capabilities only feed
two flags that the controllers log, and are left out). -/
structure CreateVolumeRequest where
  Name : String
  CapacityRange : Option CapacityRange
  Parameters : GoMap
  VolumeContentSource : Option VolumeContentSource
  deriving DecidableEq, Repr

/-- The message `csi.Volume`. -/
structure Volume where
  VolumeId : String
  CapacityBytes : Int
  VolumeContext : GoMap
  ContentSource : Option VolumeContentSource
  deriving DecidableEq, Repr

/-- The message `csi.CreateVolumeResponse`; the empty message has no volume. -/
structure CreateVolumeResponse where
  Volume : Option Volume
  deriving DecidableEq, Repr

/-- The message `csi.DeleteVolumeRequest`. -/
structure DeleteVolumeRequest where
  VolumeId : String
  deriving DecidableEq, Repr

/-- The message `csi.DeleteVolumeResponse`, which has no fields. -/
structure DeleteVolumeResponse where
  deriving DecidableEq, Repr

/-- The message `csi.ControllerExpandVolumeRequest`. -/
structure ControllerExpandVolumeRequest where
  VolumeId : String
  CapacityRange : Option CapacityRange
  deriving DecidableEq, Repr

/-- The message `csi.ControllerExpandVolumeResponse`; the empty message has
capacity 0. -/
structure ControllerExpandVolumeResponse where
  CapacityBytes : Int
  NodeExpansionRequired : Bool
  deriving DecidableEq, Repr

end csi

/-! ## Backend gateway -/

/-- The fields of `api.FileSystem` that the controllers read or write. -/
structure FileSystem where
  ID : Int
  PoolID : Int
  Name : String
  SsdEnabled : Bool
  Provtype : String
  Size : Int
  deriving DecidableEq, Repr

/-- One entry of the permission list of an export. -/
structure Permission where
  access : String
  no_root_squash : Bool
  client : String
  deriving DecidableEq, Repr

/-- The fields of `api.ExportFileSys` that `createExportPath` fills in. -/
structure ExportFileSys where
  FilesystemID : Int
  Transport_protocols : String
  Privileged_port : Bool
  Export_path : String
  Permissionsput : List Permission
  deriving DecidableEq, Repr

/-- The fields of `api.ExportResponse` that the controllers read. -/
structure ExportResponse where
  ID : Int
  ExportPath : String
  deriving DecidableEq, Repr

/-- A call to the backend gateway, with its arguments. -/
inductive Call
  | OneTimeValidation (poolname networkspace : String)
  | GetFileSystemCount
  | GetStoragePoolIDByName (name : String)
  | CreateFilesystem (fileSys : FileSystem)
  | ExportFileSystem (exportFileSystem : ExportFileSys)
  | getNetworkSpaceIP (config : GoMap)
  | AttachMetadataToObject (objectID : Int) (metadata : GoMap)
  | DeleteExportPath (exportID : Int)
  | DeleteFileSystem (fileSystemID : Int)
  | GetExportByFileSystem (fileSystemID : Int)
  | DetachMetadataFromObject (objectID : Int)
  | UpdateFilesystem (fileSystemID : Int) (fileSys : FileSystem)
  | validateTreeqParameters (config : GoMap)
  | IsTreeqAlreadyExist (poolName networkSpace pVName : String)
  | CreateTreeqVolume (config : GoMap) (capacity : Int) (pvName : String)
  | DeleteTreeqVolume (filesystemID treeqID : Int)
  | UpdateTreeqVolume (filesystemID treeqID capacity : Int) (maxSize : String)
  deriving DecidableEq, Repr

/-- The capacity a call hands to the backend, for the calls that carry one. -/
def Call.capacity : Call → Option Int
  | .CreateFilesystem fileSys => some fileSys.Size
  | .UpdateFilesystem _ fileSys => some fileSys.Size
  | .CreateTreeqVolume _ capacity _ => some capacity
  | .UpdateTreeqVolume _ _ capacity _ => some capacity
  | _ => none

/-- Whether a call is `DeleteFileSystem`. -/
def Call.isDeleteFileSystem : Call → Bool
  | .DeleteFileSystem _ => true
  | _ => false

/-- Whether a call is `DeleteExportPath`. -/
def Call.isDeleteExportPath : Call → Bool
  | .DeleteExportPath _ => true
  | _ => false

/-- Whether a call is `CreateTreeqVolume`. -/
def Call.isCreateTreeqVolume : Call → Bool
  | .CreateTreeqVolume _ _ _ => true
  | _ => false

/-- Whether a call is `UpdateTreeqVolume`. -/
def Call.isUpdateTreeqVolume : Call → Bool
  | .UpdateTreeqVolume _ _ _ _ => true
  | _ => false

/-- The gateway used by the exclusive strategy: the methods of `nfs.cs.api`
that `nfscontroller.go` calls, and `nfs.cs.getNetworkSpaceIP`. Each method
takes the backend state and returns its Go results with the next state. A
method whose value the controller discards returns its error only. A method
that succeeds (`nil` error) returns a non-nil value, and no method changes
the map it is given or panics, so `recover()` finds nothing. -/
structure Api (σ : Type) where
  OneTimeValidation : String → String → σ → (String × Option GoError) × σ
  GetFileSystemCount : σ → (Int × Option GoError) × σ
  GetStoragePoolIDByName : String → σ → (Int × Option GoError) × σ
  CreateFilesystem : FileSystem → σ → (FileSystem × Option GoError) × σ
  ExportFileSystem : ExportFileSys → σ → (ExportResponse × Option GoError) × σ
  getNetworkSpaceIP : GoMap → σ → (String × Option GoError) × σ
  AttachMetadataToObject : Int → GoMap → σ → Option GoError × σ
  DeleteExportPath : Int → σ → Option GoError × σ
  DeleteFileSystem : Int → σ → Option GoError × σ
  GetExportByFileSystem : Int → σ → (List ExportResponse × Option GoError) × σ
  DetachMetadataFromObject : Int → σ → Option GoError × σ
  UpdateFilesystem : Int → FileSystem → σ → Option GoError × σ

/-- The interface `treeq.filesysService` of the quota strategy, as far as
`treeqcontroller.go` calls it; same conventions as `Api`. -/
structure FilesysService (σ : Type) where
  validateTreeqParameters : GoMap → σ → (Bool × GoMap) × σ
  IsTreeqAlreadyExist : String → String → String → σ → (GoMap × Option GoError) × σ
  CreateTreeqVolume : GoMap → Int → String → σ → (GoMap × Option GoError) × σ
  DeleteTreeqVolume : Int → Int → σ → Option GoError × σ
  UpdateTreeqVolume : Int → Int → Int → String → σ → Option GoError × σ

/-- What a controller operation leaves behind: its Go results `val`, the
backend state `st`, and the gateway calls it made, in order. -/
structure Run (σ α : Type) where
  val : α
  st : σ
  calls : List Call

/-! ## Shared constants (`nfscontroller.go`) -/

/-- The constant `MaxFileSystemAllowed`. -/
def MaxFileSystemAllowed : Int := 4000

/-- The constant `NfsExportPermissions`. -/
def NfsExportPermissions : String := "RW"

/-- The constant `NoRootSquash`. -/
def NoRootSquash : Bool := true

/-- The constant `dataRoot`. -/
def dataRoot : String := "/fs"

/-- The constant `kib`. -/
def kib : Int := 1024

/-- The constant `mib`. -/
def mib : Int := kib * 1024

/-- The constant `gib`. -/
def gib : Int := mib * 1024

/-- Stand-in result for a run-time panic of Go code that has no `recover`: the
places that use it are unreachable (`stringsSplit_ne_nil`,
`CreateNFSVolume_volume_or_error`). -/
def runtimePanic (msg : String) : GoError := .errorsNew ("panic: runtime error: " ++ msg)

/-- Go `fmt.Sprint(b)` for a boolean. -/
def sprintBool (b : Bool) : String := if b then "true" else "false"

/-! ## Quota strategy (`treeqcontroller.go`) -/

/-- The receiver `treeqstorage`: it holds the service it delegates to. -/
structure treeqstorage (σ : Type) where
  filesysService : FilesysService σ

/-- The function `getVolumeIDs`: splits the identifier on `#` and parses the
first two fields. The results are `(filesystemID, treeqID, size, err)`; the
error of the first `ParseInt` is overwritten by the second one. -/
def getVolumeIDs (volumeID : String) : Int × Int × String × Option GoError :=
  match stringsSplit volumeID "#" with
  | [f0, f1, f2] =>
    let r0 := ParseInt f0
    let r1 := ParseInt f1
    (r0.1, r1.1, f2, r1.2)
  | _ => (0, 0, "", some (.errorsNew "volume Id and other details not found"))

/-- The method `treeqstorage.CreateVolume`. The key `MAXFILESYSTEMSIZE` is a
constant of the package declared outside the modelled files. -/
def treeqstorage.CreateVolume {σ : Type} (treeq : treeqstorage σ) (MAXFILESYSTEMSIZE : String)
    (req : csi.CreateVolumeRequest) (st : σ) :
    Run σ (Option csi.CreateVolumeResponse × Option GoError) :=
  let config := req.Parameters
  let pvName := req.Name
  let v := treeq.filesysService.validateTreeqParameters config st
  let c0 : List Call := [.validateTreeqParameters config]
  if ¬ v.1.1 then
    ⟨(none, some (.statusError .InvalidArgument "Fail to validate parameter for nfs_treeq protocol")),
      v.2, c0⟩
  else
    let capacity := csi.GetRequiredBytes req.CapacityRange
    let capacity := if capacity < gib then gib else capacity
    let networkSpace := stringsTrim (config.get "network_space") ""
    let e := treeq.filesysService.IsTreeqAlreadyExist (config.get "pool_name") networkSpace pvName v.2
    let c1 := c0 ++ [.IsTreeqAlreadyExist (config.get "pool_name") networkSpace pvName]
    let r : Run σ (GoMap × Option GoError) :=
      if e.1.1.len = 0 ∧ e.1.2 = none then
        let c := treeq.filesysService.CreateTreeqVolume config capacity pvName e.2
        ⟨c.1, c.2, c1 ++ [.CreateTreeqVolume config capacity pvName]⟩
      else ⟨e.1, e.2, c1⟩
    match r.val.2 with
    | some err => ⟨(some ⟨none⟩, some err), r.st, r.calls⟩
    | none =>
      let treeqVolumeMap := r.val.1
      ⟨(some ⟨some {
          VolumeId := treeqVolumeMap.get "ID" ++ "#" ++ treeqVolumeMap.get "TREEQID" ++ "#"
            ++ config.get MAXFILESYSTEMSIZE
          CapacityBytes := capacity
          VolumeContext := treeqVolumeMap
          ContentSource := req.VolumeContentSource }⟩, none), r.st, r.calls⟩

/-- The method `treeqstorage.DeleteVolume`. -/
def treeqstorage.DeleteVolume {σ : Type} (treeq : treeqstorage σ)
    (req : csi.DeleteVolumeRequest) (st : σ) :
    Run σ (Option csi.DeleteVolumeResponse × Option GoError) :=
  if req.VolumeId.data.length = 0 then
    ⟨(none, some (.statusError .InvalidArgument "Volume ID missing in request")), st, []⟩
  else
    match getVolumeIDs req.VolumeId with
    | (_, _, _, some _) =>
      ⟨(none, some (.statusError .InvalidArgument "Invalid volume ID")), st, []⟩
    | (filesystemID, treeqID, _, none) =>
      let d := treeq.filesysService.DeleteTreeqVolume filesystemID treeqID st
      let c : List Call := [.DeleteTreeqVolume filesystemID treeqID]
      match d.1 with
      | some nfsDeleteErr =>
        if stringsContains nfsDeleteErr.Error "FILESYSTEM_NOT_FOUND" then
          ⟨(some {}, none), d.2, c⟩
        else ⟨(some {}, some nfsDeleteErr), d.2, c⟩
      | none => ⟨(some {}, none), d.2, c⟩

/-- The method `treeqstorage.ControllerExpandVolume`. (No modelled step
panics, so the deferred `recover()` finds nothing.) -/
def treeqstorage.ControllerExpandVolume {σ : Type} (treeq : treeqstorage σ)
    (req : csi.ControllerExpandVolumeRequest) (st : σ) :
    Run σ (Option csi.ControllerExpandVolumeResponse × Option GoError) :=
  match getVolumeIDs req.VolumeId with
  | (_, _, _, some _) =>
    ⟨(none, some (.statusError .InvalidArgument "Invalid volume ID")), st, []⟩
  | (filesystemID, treeqID, maxSize, none) =>
    let capacity := csi.GetRequiredBytes req.CapacityRange
    let capacity := if capacity < gib then gib else capacity
    let u := treeq.filesysService.UpdateTreeqVolume filesystemID treeqID capacity maxSize st
    let c : List Call := [.UpdateTreeqVolume filesystemID treeqID capacity maxSize]
    match u.1 with
    | some err => ⟨(none, some err), u.2, c⟩
    | none => ⟨(some { CapacityBytes := capacity, NodeExpansionRequired := false }, none), u.2, c⟩

/-! ## Exclusive strategy (`nfscontroller.go`) -/

/-- The struct `infinidatVolume`, without the two fields that
`CreateNFSVolume` never sets. -/
structure infinidatVolume where
  VolName : String
  VolID : String
  VolSize : Int
  VolPath : String
  IpAddress : String
  ExportID : Int
  FileSystemID : Int
  ExportBlock : String
  deriving DecidableEq, Repr

/-- The data fields of the receiver `nfsstorage` that the controller uses
(the gateway `nfs.cs` is passed on its own, as an `Api`). -/
structure nfsstorage where
  uniqueID : Int
  configmap : GoMap
  pVName : String
  capacity : Int
  fileSystemID : Int
  exportpath : String
  exportID : Int
  exportBlock : String
  ipAddress : String
  deriving DecidableEq, Repr

/-- What a method of `nfsstorage` leaves behind: its Go results, the receiver
after the call, the backend state and the gateway calls made, in order. -/
structure NfsRun (σ α : Type) where
  val : α
  nfs : nfsstorage
  st : σ
  calls : List Call

/-- The function `validateParameter`. -/
def validateParameter (config : GoMap) : Bool × GoMap :=
  let compulsaryFields := ["pool_name", "nfs_networkspace"]
  compulsaryFields.foldl
    (fun (acc : Bool × GoMap) param =>
      if config.get param = "" then (false, acc.2.set param (param ++ " valume missing"))
      else acc)
    (true, GoMap.empty)

/-- The function `getPVName`. -/
def getPVName (pvName : String) (pvPrfix : String) : String :=
  if pvPrfix ≠ "" then
    if ¬ stringsHasPrefix pvName pvPrfix then
      match stringsSplit pvName "-" with
      | _ :: s1 :: _ => pvPrfix ++ s1
      | _ => pvName
    else pvName
  else pvName

/-- The method `nfsstorage.createFileSystem`; the result is `err`. -/
def nfsstorage.createFileSystem {σ : Type} (nfs : nfsstorage) (api : Api σ) (st : σ) :
    NfsRun σ (Option GoError) :=
  let r1 := api.GetFileSystemCount st
  let c1 : List Call := [.GetFileSystemCount]
  match r1.1.2 with
  | some err => ⟨some err, nfs, r1.2, c1⟩
  | none =>
    if r1.1.1 ≥ MaxFileSystemAllowed then
      ⟨some (.errorsNew "Ibox not allowed to create new file system"), nfs, r1.2, c1⟩
    else
      let namepool := nfs.configmap.get "pool_name"
      let r2 := api.GetStoragePoolIDByName namepool r1.2
      let c2 := c1 ++ [.GetStoragePoolIDByName namepool]
      match r2.1.2 with
      | some err => ⟨some err, nfs, r2.2, c2⟩
      | none =>
        let ssdEnabled := nfs.configmap.get "ssd_enabled"
        let ssdEnabled := if ssdEnabled = "" then sprintBool false else ssdEnabled
        let fileSys : FileSystem := {
          ID := 0
          PoolID := r2.1.1
          Name := nfs.pVName
          SsdEnabled := ParseBool ssdEnabled
          Provtype := stringsToUpper (nfs.configmap.get "provision_type")
          Size := nfs.capacity }
        let r3 := api.CreateFilesystem fileSys r2.2
        let c3 := c2 ++ [.CreateFilesystem fileSys]
        match r3.1.2 with
        | some err => ⟨some err, nfs, r3.2, c3⟩
        | none => ⟨none, { nfs with fileSystemID := r3.1.1.ID }, r3.2, c3⟩

/-- The method `nfsstorage.createExportPath`; the result is `err`. -/
def nfsstorage.createExportPath {σ : Type} (nfs : nfsstorage) (api : Api σ) (st : σ) :
    NfsRun σ (Option GoError) :=
  let access := nfs.configmap.get "nfs_export_permissions"
  let access := if access = "" then NfsExportPermissions else access
  let rootsquash := nfs.configmap.get "no_root_squash"
  let rootsquash := if rootsquash = "" then sprintBool NoRootSquash else rootsquash
  let rootsq := ParseBool rootsquash
  let permissionsput : List Permission :=
    [{ access := access, no_root_squash := rootsq, client := "*" }]
  let exportFileSystem : ExportFileSys := {
    FilesystemID := nfs.fileSystemID
    Transport_protocols := "TCP"
    Privileged_port := true
    Export_path := nfs.exportpath
    Permissionsput := permissionsput }
  let r := api.ExportFileSystem exportFileSystem st
  let c : List Call := [.ExportFileSystem exportFileSystem]
  match r.1.2 with
  | some err => ⟨some err, nfs, r.2, c⟩
  | none => ⟨none, { nfs with exportID := r.1.1.ID, exportBlock := r.1.1.ExportPath }, r.2, c⟩

/-- The second deferred function of `CreateNFSVolume`, registered once the
filesystem exists: on an error return with a non-zero recorded filesystem id
it calls `DeleteFileSystem` and ignores what that returns. -/
def nfsstorage.revertFileSystem {σ : Type} (api : Api σ)
    (r : NfsRun σ (Option infinidatVolume × Option GoError)) :
    NfsRun σ (Option infinidatVolume × Option GoError) :=
  if r.val.2 ≠ none ∧ r.nfs.fileSystemID ≠ 0 then
    ⟨r.val, r.nfs, (api.DeleteFileSystem r.nfs.fileSystemID r.st).2,
      r.calls ++ [.DeleteFileSystem r.nfs.fileSystemID]⟩
  else r

/-- The third deferred function of `CreateNFSVolume`, registered once the
network-space address is resolved: on an error return with a non-zero
recorded export id it calls `DeleteExportPath` and ignores what that
returns. -/
def nfsstorage.revertExportPath {σ : Type} (api : Api σ)
    (r : NfsRun σ (Option infinidatVolume × Option GoError)) :
    NfsRun σ (Option infinidatVolume × Option GoError) :=
  if r.val.2 ≠ none ∧ r.nfs.exportID ≠ 0 then
    ⟨r.val, r.nfs, (api.DeleteExportPath r.nfs.exportID r.st).2,
      r.calls ++ [.DeleteExportPath r.nfs.exportID]⟩
  else r

/-- The part of `CreateNFSVolume` that runs under its third deferred function:
attaching the metadata and building the result. -/
def nfsstorage.attachMetadata {σ : Type} (nfs : nfsstorage) (api : Api σ) (st : σ) :
    NfsRun σ (Option infinidatVolume × Option GoError) :=
  let metadata := (GoMap.empty.set "host.k8s.pvname" nfs.pVName).set "filesystem_type" ""
  let r := api.AttachMetadataToObject nfs.fileSystemID metadata st
  let c : List Call := [.AttachMetadataToObject nfs.fileSystemID metadata]
  match r.1 with
  | some err => ⟨(none, some err), nfs, r.2, c⟩
  | none =>
    ⟨(some {
        VolID := FormatInt nfs.fileSystemID
        VolName := nfs.pVName
        VolSize := nfs.capacity
        VolPath := nfs.exportpath
        IpAddress := nfs.ipAddress
        ExportID := nfs.exportID
        ExportBlock := nfs.exportBlock
        FileSystemID := nfs.fileSystemID }, none), nfs, r.2, c⟩

/-- The part of `CreateNFSVolume` that runs under its second deferred
function: creating the export, resolving the address, and then the metadata
step under the third deferred function. -/
def nfsstorage.exportAndAttach {σ : Type} (nfs : nfsstorage) (api : Api σ) (st : σ) :
    NfsRun σ (Option infinidatVolume × Option GoError) :=
  let e := nfs.createExportPath api st
  match e.val with
  | some err => ⟨(none, some err), e.nfs, e.st, e.calls⟩
  | none =>
    let ip := api.getNetworkSpaceIP e.nfs.configmap e.st
    let nfs1 : nfsstorage := { e.nfs with ipAddress := ip.1.1 }
    let c := e.calls ++ [.getNetworkSpaceIP e.nfs.configmap]
    match ip.1.2 with
    | some err => ⟨(none, some err), nfs1, ip.2, c⟩
    | none =>
      let a := nfsstorage.revertExportPath api (nfs1.attachMetadata api ip.2)
      ⟨a.val, a.nfs, a.st, c ++ a.calls⟩

/-- The method `nfsstorage.CreateNFSVolume`; the results are
`(infinidatVol, err)`. The deferred functions run in reverse order of their
registration, after the results are set. -/
def nfsstorage.CreateNFSVolume {σ : Type} (nfs : nfsstorage) (api : Api σ) (st : σ) :
    NfsRun σ (Option infinidatVolume × Option GoError) :=
  let poolname := nfs.configmap.get "pool_name"
  let networkspace := nfs.configmap.get "nfs_networkspace"
  let v := api.OneTimeValidation poolname networkspace st
  let c0 : List Call := [.OneTimeValidation poolname networkspace]
  match v.1.2 with
  | some err => ⟨(none, some err), nfs, v.2, c0⟩
  | none =>
    let nfs1 : nfsstorage := { nfs with configmap := nfs.configmap.set "nfs_networkspace" v.1.1 }
    let f := nfs1.createFileSystem api v.2
    match f.val with
    | some err => ⟨(none, some err), f.nfs, f.st, c0 ++ f.calls⟩
    | none =>
      let b := nfsstorage.revertFileSystem api (f.nfs.exportAndAttach api f.st)
      ⟨b.val, b.nfs, b.st, c0 ++ f.calls ++ b.calls⟩

/-- The receiver as `CreateVolume` sets it up for `CreateNFSVolume`: the
volume name, the capacity raised to the 1 GiB floor and the assignments to
`nfs.pVName`, `nfs.configmap`, `nfs.capacity` and `nfs.exportpath`. -/
def nfsstorage.assignRequest (nfs : nfsstorage) (req : csi.CreateVolumeRequest) : nfsstorage :=
  let config := req.Parameters
  let pvName := getPVName req.Name (config.get "vol_prefix")
  let capacity := csi.GetRequiredBytes req.CapacityRange
  let capacity := if capacity < gib then gib else capacity
  { nfs with
    pVName := pvName
    configmap := config
    capacity := capacity
    exportpath := pathJoin [dataRoot, pvName] }

/-- The method `nfsstorage.CreateVolume`. The map `config` is the one stored
in `nfs.configmap`, so it is read back from the receiver after
`CreateNFSVolume` has written to it, and the local `capacity` is the value
stored in `nfs.capacity`. Dereferencing a nil `infinidatVol` would panic;
`CreateNFSVolume` never returns nil with a nil error. -/
def nfsstorage.CreateVolume {σ : Type} (nfs : nfsstorage) (api : Api σ)
    (req : csi.CreateVolumeRequest) (st : σ) :
    NfsRun σ (Option csi.CreateVolumeResponse × Option GoError) :=
  if ¬ (validateParameter req.Parameters).1 then
    ⟨(none, some (.statusError .InvalidArgument "Fail to validate the storage class parameter")),
      nfs, st, []⟩
  else
    let nfs1 := nfs.assignRequest req
    let capacity := nfs1.capacity
    let r := nfs1.CreateNFSVolume api st
    match r.val with
    | (_, some createVolumeErr) => ⟨(some ⟨none⟩, some createVolumeErr), r.nfs, r.st, r.calls⟩
    | (none, none) => ⟨(none, some (runtimePanic "invalid memory address or nil pointer dereference")),
        r.nfs, r.st, r.calls⟩
    | (some infinidatVol, none) =>
      let config := r.nfs.configmap
      let config := config.set "ipAddress" infinidatVol.IpAddress
      let config := config.set "volPathd" infinidatVol.VolPath
      let config := config.set "volID" infinidatVol.VolID
      let config := config.set "volSize" (FormatInt infinidatVol.VolSize)
      let config := config.set "exportID" (FormatInt infinidatVol.ExportID)
      let config := config.set "fileSystemID" (FormatInt infinidatVol.FileSystemID)
      let config := config.set "exportBlock" infinidatVol.ExportBlock
      ⟨(some ⟨some {
          VolumeId := infinidatVol.VolID
          CapacityBytes := capacity
          VolumeContext := config
          ContentSource := req.VolumeContentSource }⟩, none),
        { r.nfs with configmap := config }, r.st, r.calls⟩

/-- The loop of `DeleteNFSVolume` over the exports of the filesystem: deletes
them in order and stops at the first failure. The result is `err`, the
backend state and the calls made. -/
def deleteExports {σ : Type} (api : Api σ) : List ExportResponse → σ → Run σ (Option GoError)
  | [], st => ⟨none, st, []⟩
  | ep :: rest, st =>
    let d := api.DeleteExportPath ep.ID st
    match d.1 with
    | some err => ⟨some err, d.2, [.DeleteExportPath ep.ID]⟩
    | none =>
      let r := deleteExports api rest d.2
      ⟨r.val, r.st, Call.DeleteExportPath ep.ID :: r.calls⟩

/-- The method `nfsstorage.DeleteNFSVolume`; the result is `err`. -/
def nfsstorage.DeleteNFSVolume {σ : Type} (nfs : nfsstorage) (api : Api σ) (st : σ) :
    NfsRun σ (Option GoError) :=
  let g := api.GetExportByFileSystem nfs.uniqueID st
  let c0 : List Call := [.GetExportByFileSystem nfs.uniqueID]
  match g.1.2 with
  | some err => ⟨some err, nfs, g.2, c0⟩
  | none =>
    let d := deleteExports api g.1.1 g.2
    let c1 := c0 ++ d.calls
    match d.val with
    | some err => ⟨some err, nfs, d.st, c1⟩
    | none =>
      let m := api.DetachMetadataFromObject nfs.uniqueID d.st
      let c2 := c1 ++ [.DetachMetadataFromObject nfs.uniqueID]
      match m.1 with
      | some err => ⟨some err, nfs, m.2, c2⟩
      | none =>
        let f := api.DeleteFileSystem nfs.uniqueID m.2
        ⟨f.1, nfs, f.2, c2 ++ [.DeleteFileSystem nfs.uniqueID]⟩

/-- The method `nfsstorage.DeleteVolume`. -/
def nfsstorage.DeleteVolume {σ : Type} (nfs : nfsstorage) (api : Api σ)
    (req : csi.DeleteVolumeRequest) (st : σ) :
    NfsRun σ (Option csi.DeleteVolumeResponse × Option GoError) :=
  if req.VolumeId.data.length = 0 then
    ⟨(none, some (.statusError .InvalidArgument "Volume ID missing in request")), nfs, st, []⟩
  else
    match ParseInt req.VolumeId with
    | (_, some _) => ⟨(some {}, none), nfs, st, []⟩
    | (volID, none) =>
      let nfs1 : nfsstorage := { nfs with uniqueID := volID }
      let r := nfs1.DeleteNFSVolume api st
      match r.val with
      | some _ => ⟨(some {}, none), r.nfs, r.st, r.calls⟩
      | none => ⟨(some {}, none), r.nfs, r.st, r.calls⟩

/-- The method `nfsstorage.ControllerExpandVolume`. Indexing an empty split
result would panic; `strings.Split` never returns one. -/
def nfsstorage.ControllerExpandVolume {σ : Type} (nfs : nfsstorage) (api : Api σ)
    (req : csi.ControllerExpandVolumeRequest) (st : σ) :
    NfsRun σ (Option csi.ControllerExpandVolumeResponse × Option GoError) :=
  if req.VolumeId = "" then
    ⟨(none, some (.statusError .InvalidArgument "Volume ID missing in request")), nfs, st, []⟩
  else if req.CapacityRange = none then
    ⟨(none, some (.statusError .InvalidArgument "CapacityRange cannot be empty")), nfs, st, []⟩
  else
    match stringsSplit req.VolumeId "$$" with
    | [] => ⟨(none, some (runtimePanic "index out of range [0] with length 0")), nfs, st, []⟩
    | volDetail0 :: _ =>
      match ParseInt volDetail0 with
      | (_, some _) =>
        ⟨(some { CapacityBytes := 0, NodeExpansionRequired := false }, none), nfs, st, []⟩
      | (ID, none) =>
        let capacity := csi.GetRequiredBytes req.CapacityRange
        let capacity := if capacity < gib then gib else capacity
        let fileSys : FileSystem := {
          ID := 0, PoolID := 0, Name := "", SsdEnabled := false, Provtype := "", Size := capacity }
        let u := api.UpdateFilesystem ID fileSys st
        let c : List Call := [.UpdateFilesystem ID fileSys]
        match u.1 with
        | some err =>
          ⟨(some { CapacityBytes := 0, NodeExpansionRequired := false }, some err), nfs, u.2, c⟩
        | none =>
          ⟨(some { CapacityBytes := capacity, NodeExpansionRequired := false }, none), nfs, u.2, c⟩

/-! ## Specification-side definitions and example backends -/

/-- The capacity that the specification prescribes for a request of `r`
bytes: exactly 1 GiB (1073741824) below the floor, `r` itself from the floor
upwards. -/
def floorCapacity (r : Int) : Int := if r < 1073741824 then 1073741824 else r

/-- Parameters of an example backend for the exclusive strategy: the ids it
assigns and the errors it answers with at the steps that can be made to fail. -/
structure Script where
  fsID : Int
  exportID : Int
  exportErr : Option GoError
  ipErr : Option GoError
  attachErr : Option GoError
  revertErr : Option GoError
  deriving DecidableEq, Repr

/-- An example backend for the exclusive strategy. Its state counts the calls
it has served. -/
def scriptedApi (sc : Script) : Api Nat where
  OneTimeValidation := fun _ networkspace n => ((networkspace, none), n + 1)
  GetFileSystemCount := fun n => ((12, none), n + 1)
  GetStoragePoolIDByName := fun _ n => ((3, none), n + 1)
  CreateFilesystem := fun fileSys n => (({ fileSys with ID := sc.fsID }, none), n + 1)
  ExportFileSystem := fun e n => ((⟨sc.exportID, e.Export_path⟩, sc.exportErr), n + 1)
  getNetworkSpaceIP := fun _ n =>
    ((if sc.ipErr = none then "10.0.0.5" else "", sc.ipErr), n + 1)
  AttachMetadataToObject := fun _ _ n => (sc.attachErr, n + 1)
  DeleteExportPath := fun _ n => (sc.revertErr, n + 1)
  DeleteFileSystem := fun _ n => (sc.revertErr, n + 1)
  GetExportByFileSystem := fun _ n => (([⟨sc.exportID, "/fs/pvc-1"⟩], none), n + 1)
  DetachMetadataFromObject := fun _ n => (none, n + 1)
  UpdateFilesystem := fun _ _ n => (none, n + 1)

/-- An example service for the quota strategy: it accepts every parameter
map, reports `existing` as the quota found by name, creates quota 9 in
filesystem 5, and answers resize requests with `updateErr`. Its state counts
the calls it has served. -/
def scriptedService (existing : GoMap) (updateErr : Option GoError) : FilesysService Nat where
  validateTreeqParameters := fun _ n => ((true, GoMap.empty), n + 1)
  IsTreeqAlreadyExist := fun _ _ _ n => ((existing, none), n + 1)
  CreateTreeqVolume := fun _ _ _ n => ((⟨[("ID", "5"), ("TREEQID", "9")]⟩, none), n + 1)
  DeleteTreeqVolume := fun _ _ n => (none, n + 1)
  UpdateTreeqVolume := fun _ _ _ _ n => (updateErr, n + 1)

/-- A receiver with all fields at their zero values. -/
def nfsstorage.zero : nfsstorage := {
  uniqueID := 0, configmap := GoMap.empty, pVName := "", capacity := 0, fileSystemID := 0,
  exportpath := "", exportID := 0, exportBlock := "", ipAddress := "" }

/-- The request of the specification's scenario for the exclusive strategy:
name `pvc-1`, 500 MiB, pool `p1`, network space `ns1`. -/
def examplePvc : csi.CreateVolumeRequest := {
  Name := "pvc-1"
  CapacityRange := some ⟨524288000, 0⟩
  Parameters := ⟨[("pool_name", "p1"), ("nfs_networkspace", "ns1")]⟩
  VolumeContentSource := none }

/-- Parameters of an example backend for the delete path of the exclusive
strategy: the exports it lists, and the errors it answers with at the
lookup, at the deletion of the export `badExport`, at the metadata detach and
at the filesystem deletion. -/
structure DeleteScript where
  exports : List ExportResponse
  lookupErr : Option GoError
  badExport : Int
  exportErr : Option GoError
  detachErr : Option GoError
  deleteErr : Option GoError
  deriving DecidableEq, Repr

/-- An example backend for the delete and expand paths of the exclusive
strategy; resize requests are answered with `deleteErr` too. Its state counts
the calls it has served. -/
def scriptedDeleteApi (sc : DeleteScript) : Api Nat where
  OneTimeValidation := fun _ networkspace n => ((networkspace, none), n + 1)
  GetFileSystemCount := fun n => ((12, none), n + 1)
  GetStoragePoolIDByName := fun _ n => ((3, none), n + 1)
  CreateFilesystem := fun fileSys n => ((fileSys, none), n + 1)
  ExportFileSystem := fun e n => ((⟨1, e.Export_path⟩, none), n + 1)
  getNetworkSpaceIP := fun _ n => (("10.0.0.5", none), n + 1)
  AttachMetadataToObject := fun _ _ n => (none, n + 1)
  DeleteExportPath := fun i n => (if i = sc.badExport then sc.exportErr else none, n + 1)
  DeleteFileSystem := fun _ n => (sc.deleteErr, n + 1)
  GetExportByFileSystem := fun _ n =>
    ((if sc.lookupErr = none then sc.exports else [], sc.lookupErr), n + 1)
  DetachMetadataFromObject := fun _ n => (sc.detachErr, n + 1)
  UpdateFilesystem := fun _ _ n => (sc.deleteErr, n + 1)

/-- An example backend for the ceiling check of the exclusive strategy: it
reports `count` filesystems and otherwise succeeds, assigning filesystem id 42
and export id 17. Its state counts the calls it has served. -/
def countingApi (count : Int) : Api Nat where
  OneTimeValidation := fun _ networkspace n => ((networkspace, none), n + 1)
  GetFileSystemCount := fun n => ((count, none), n + 1)
  GetStoragePoolIDByName := fun _ n => ((3, none), n + 1)
  CreateFilesystem := fun fileSys n => (({ fileSys with ID := 42 }, none), n + 1)
  ExportFileSystem := fun e n => ((⟨17, e.Export_path⟩, none), n + 1)
  getNetworkSpaceIP := fun _ n => (("10.0.0.5", none), n + 1)
  AttachMetadataToObject := fun _ _ n => (none, n + 1)
  DeleteExportPath := fun _ n => (none, n + 1)
  DeleteFileSystem := fun _ n => (none, n + 1)
  GetExportByFileSystem := fun _ n => (([], none), n + 1)
  DetachMetadataFromObject := fun _ n => (none, n + 1)
  UpdateFilesystem := fun _ _ n => (none, n + 1)

/-- An example service for the delete path of the quota strategy: it answers
deletions with `deleteErr`. Its state counts the calls it has served. -/
def scriptedQuotaDelete (deleteErr : Option GoError) : FilesysService Nat where
  validateTreeqParameters := fun _ n => ((true, GoMap.empty), n + 1)
  IsTreeqAlreadyExist := fun _ _ _ n => ((GoMap.empty, none), n + 1)
  CreateTreeqVolume := fun _ _ _ n => ((⟨[("ID", "5"), ("TREEQID", "9")]⟩, none), n + 1)
  DeleteTreeqVolume := fun _ _ n => (deleteErr, n + 1)
  UpdateTreeqVolume := fun _ _ _ _ n => (none, n + 1)

/-- Whether a call is one of the two delete calls of the creation path. -/
def Call.isDelete (c : Call) : Bool := c.isDeleteFileSystem || c.isDeleteExportPath

/-! ## Properties of the string and number helpers -/

theorem digitChar_facts : ∀ d : Fin 10,
    ('0' ≤ digitChar d.val ∧ digitChar d.val ≤ '9') ∧
    (digitChar d.val).toNat - '0'.toNat = d.val ∧
    digitChar d.val ≠ '#' ∧ digitChar d.val ≠ '+' ∧ digitChar d.val ≠ '-' := by
  decide

theorem digitChar_isDigit (d : Nat) (h : d < 10) : '0' ≤ digitChar d ∧ digitChar d ≤ '9' :=
  (digitChar_facts ⟨d, h⟩).1

theorem digitChar_value (d : Nat) (h : d < 10) : (digitChar d).toNat - '0'.toNat = d :=
  (digitChar_facts ⟨d, h⟩).2.1

theorem digitChar_ne_hash (d : Nat) (h : d < 10) : digitChar d ≠ '#' :=
  (digitChar_facts ⟨d, h⟩).2.2.1

theorem digitChar_ne_plus (d : Nat) (h : d < 10) : digitChar d ≠ '+' :=
  (digitChar_facts ⟨d, h⟩).2.2.2.1

theorem digitChar_ne_minus (d : Nat) (h : d < 10) : digitChar d ≠ '-' :=
  (digitChar_facts ⟨d, h⟩).2.2.2.2

/-- Every character of a decimal rendering is a digit character. -/
theorem formatUintFuel_digits (fuel n : Nat) :
    ∀ c ∈ formatUintFuel fuel n, ∃ d, d < 10 ∧ c = digitChar d := by
  induction fuel generalizing n with
  | zero => intro c hc; simp [formatUintFuel] at hc
  | succ fuel ih =>
    intro c hc
    unfold formatUintFuel at hc
    split at hc
    · simp at hc; exact ⟨n, by assumption, hc⟩
    · simp at hc
      rcases hc with hc | hc
      · exact ih _ c hc
      · exact ⟨n % 10, Nat.mod_lt _ (by norm_num), hc⟩

theorem formatUintFuel_ne_nil (fuel n : Nat) : formatUintFuel (fuel + 1) n ≠ [] := by
  unfold formatUintFuel
  split <;> simp

theorem parseUintLoop_snoc (s : List Char) (c : Char) (n : Nat) :
    parseUintLoop (s ++ [c]) n =
      match parseUintLoop s n with
      | (m, none) => parseUintLoop [c] m
      | r => r := by
  induction s generalizing n with
  | nil => simp [parseUintLoop]
  | cons a s ih =>
    simp only [List.cons_append]
    unfold parseUintLoop
    split
    · split
      · rfl
      · simp only []
        split
        · rfl
        · exact ih _
    · rfl

theorem parseUintLoop_digit (d m : Nat) (hd : d < 10) (hm : m * 10 + d < 2 ^ 64) :
    parseUintLoop [digitChar d] m = (m * 10 + d, none) := by
  unfold parseUintLoop
  have h1 := digitChar_isDigit d hd
  have h2 := digitChar_value d hd
  simp only [h1, and_self, if_true, h2, maxUint64, parseUintLoop]
  have e1 : (m * 10) % 2 ^ 64 = m * 10 := Nat.mod_eq_of_lt (by omega)
  have e2 : (m * 10 + d) % 2 ^ 64 = m * 10 + d := Nat.mod_eq_of_lt hm
  rw [e1, e2]
  have h3 : ¬ (m ≥ (2 ^ 64 - 1) / 10 + 1) := by omega
  have h4 : ¬ (m * 10 + d < m * 10 ∨ m * 10 + d > 2 ^ 64 - 1) := by omega
  simp only [h3, h4, if_false]

theorem parseUintLoop_format (fuel n : Nat) (hf : n < fuel) (hn : n < 2 ^ 64) :
    parseUintLoop (formatUintFuel fuel n) 0 = (n, none) := by
  induction fuel generalizing n with
  | zero => omega
  | succ fuel ih =>
    unfold formatUintFuel
    split
    · rename_i h
      have := parseUintLoop_digit n 0 h (by omega)
      simpa using this
    · rename_i h
      rw [parseUintLoop_snoc, ih (n / 10) (by omega) (by omega)]
      simp only []
      have := parseUintLoop_digit (n % 10) (n / 10) (Nat.mod_lt _ (by norm_num)) (by omega)
      rw [this]
      congr 1
      omega

theorem ParseUint_format (fuel n : Nat) (hf : n < fuel) (hn : n < 2 ^ 64) :
    ParseUint (formatUintFuel fuel n) = (n, none) := by
  unfold ParseUint
  obtain ⟨k, rfl⟩ : ∃ k, fuel = k + 1 := ⟨fuel - 1, by omega⟩
  rw [if_neg (formatUintFuel_ne_nil k n)]
  exact parseUintLoop_format _ _ hf hn

/-- Parsing the decimal rendering of a non-negative 64-bit integer gives the
integer back, without error. -/
theorem ParseInt_FormatInt (n : Int) (h0 : 0 ≤ n) (h1 : n < 2 ^ 63) :
    ParseInt (FormatInt n) = (n, none) := by
  obtain ⟨m, rfl⟩ := Int.eq_ofNat_of_zero_le h0
  have hm : m < 2 ^ 63 := by exact_mod_cast h1
  have hfmt : FormatInt (m : Int) = String.mk (formatUintFuel (m + 1) m) := by
    unfold FormatInt
    simp
  rw [hfmt]
  unfold ParseInt
  have hne := formatUintFuel_ne_nil m m
  cases hs : formatUintFuel (m + 1) m with
  | nil => exact absurd hs hne
  | cons c cs =>
    have hc : c ∈ formatUintFuel (m + 1) m := by rw [hs]; simp
    obtain ⟨d, hd, rfl⟩ := formatUintFuel_digits _ _ c hc
    have hp := ParseUint_format (m + 1) m (by omega) (by omega)
    rw [hs] at hp
    simp only [digitChar_ne_plus d hd, digitChar_ne_minus d hd, or_self, if_false, hp]
    have h3 : ¬ (m ≥ 2 ^ 63) := by omega
    simp [h3]
    omega

theorem FormatInt_no_hash (n : Int) (h0 : 0 ≤ n) : '#' ∉ (FormatInt n).data := by
  obtain ⟨m, rfl⟩ := Int.eq_ofNat_of_zero_le h0
  have hfmt : FormatInt (m : Int) = String.mk (formatUintFuel (m + 1) m) := by
    unfold FormatInt
    simp
  rw [hfmt]
  intro hc
  obtain ⟨d, hd, he⟩ := formatUintFuel_digits _ _ _ hc
  exact digitChar_ne_hash d hd he.symm

theorem splitGo_ne_nil (sep : List Char) (k : Nat) (s : List Char) : splitGo sep k s ≠ [] := by
  induction s generalizing k with
  | nil => cases k <;> simp [splitGo]
  | cons c cs ih =>
    cases k with
    | succ k => simpa [splitGo] using ih k
    | zero =>
      unfold splitGo
      split
      · simp
      · split <;> simp

/-- The result of `strings.Split` always has a first element. -/
theorem stringsSplit_ne_nil (s sep : String) (h : sep ≠ "") : stringsSplit s sep ≠ [] := by
  unfold stringsSplit
  have : sep.data ≠ [] := by
    intro h0
    apply h
    cases sep
    simp_all
  simp [this, splitGo_ne_nil]

theorem splitGo_hash_none (s : List Char) (h : '#' ∉ s) : splitGo ['#'] 0 s = [s] := by
  induction s with
  | nil => simp [splitGo]
  | cons c cs ih =>
    have hc : c ≠ '#' := by intro e; apply h; simp [e]
    have hcs : '#' ∉ cs := by intro e; apply h; simp [e]
    unfold splitGo
    have : List.isPrefixOf ['#'] (c :: cs) = false := by
      simp [List.isPrefixOf, Ne.symm hc]
    simp [this, ih hcs]

theorem splitGo_hash_append (a rest : List Char) (h : '#' ∉ a) :
    splitGo ['#'] 0 (a ++ '#' :: rest) = a :: splitGo ['#'] 0 rest := by
  induction a with
  | nil =>
    simp [splitGo, List.isPrefixOf]
  | cons c cs ih =>
    have hc : c ≠ '#' := by intro e; apply h; simp [e]
    have hcs : '#' ∉ cs := by intro e; apply h; simp [e]
    simp only [List.cons_append]
    rw [splitGo]
    have : List.isPrefixOf ['#'] (c :: (cs ++ '#' :: rest)) = false := by
      simp [List.isPrefixOf, Ne.symm hc]
    simp [this, ih hcs]

theorem stringsTrim_empty_cutset (s : String) : stringsTrim s "" = s := by
  unfold stringsTrim
  simp

/-! ## Call lists of the steps of the exclusive strategy -/

theorem gib_eq : gib = 1073741824 := by decide

/-- The normalisation written in all four operations is `floorCapacity`. -/
theorem floor_eq (r : Int) : (if r < gib then gib else r) = floorCapacity r := by
  simp [floorCapacity, gib_eq]

theorem floorCapacity_eq_max (r : Int) : floorCapacity r = max r 1073741824 := by
  unfold floorCapacity
  split <;> omega

/-- The calls of `createFileSystem`: the count, the pool lookup and the
creation, the latter with the receiver's capacity as size. -/
theorem createFileSystem_calls {σ : Type} (nfs : nfsstorage) (api : Api σ) (st : σ) :
    ∀ c ∈ (nfs.createFileSystem api st).calls,
      c = .GetFileSystemCount ∨ (∃ n, c = .GetStoragePoolIDByName n) ∨
      (∃ fileSys, c = .CreateFilesystem fileSys ∧ fileSys.Size = nfs.capacity) := by
  intro c hc
  unfold nfsstorage.createFileSystem at hc
  simp only [] at hc
  split at hc
  · simp at hc; simp [hc]
  · split at hc
    · simp at hc; simp [hc]
    · split at hc
      · simp at hc; rcases hc with rfl | rfl <;> simp
      · split at hc <;>
        · simp at hc
          rcases hc with rfl | rfl | rfl <;> simp

theorem createFileSystem_no_revert {σ : Type} (nfs : nfsstorage) (api : Api σ) (st : σ) :
    (nfs.createFileSystem api st).calls.filter Call.isDeleteFileSystem = [] ∧
    (nfs.createFileSystem api st).calls.filter Call.isDeleteExportPath = [] := by
  constructor <;>
  · rw [List.filter_eq_nil_iff]
    intro c hc
    rcases createFileSystem_calls nfs api st c hc with rfl | ⟨n, rfl⟩ | ⟨f, rfl, _⟩ <;>
      simp [Call.isDeleteFileSystem, Call.isDeleteExportPath]

theorem createExportPath_calls {σ : Type} (nfs : nfsstorage) (api : Api σ) (st : σ) :
    ∃ e, (nfs.createExportPath api st).calls = [.ExportFileSystem e] := by
  unfold nfsstorage.createExportPath
  simp only []
  split <;> exact ⟨_, rfl⟩

theorem createExportPath_fileSystemID {σ : Type} (nfs : nfsstorage) (api : Api σ) (st : σ) :
    (nfs.createExportPath api st).nfs.fileSystemID = nfs.fileSystemID := by
  unfold nfsstorage.createExportPath
  simp only []
  split <;> rfl

theorem attachMetadata_calls {σ : Type} (nfs : nfsstorage) (api : Api σ) (st : σ) :
    ∃ i m, (nfs.attachMetadata api st).calls = [.AttachMetadataToObject i m] := by
  unfold nfsstorage.attachMetadata
  simp only []
  split <;> exact ⟨_, _, rfl⟩

theorem attachMetadata_nfs {σ : Type} (nfs : nfsstorage) (api : Api σ) (st : σ) :
    (nfs.attachMetadata api st).nfs = nfs := by
  unfold nfsstorage.attachMetadata
  simp only []
  split <;> rfl

theorem attachMetadata_val {σ : Type} (nfs : nfsstorage) (api : Api σ) (st : σ) :
    (∃ err, (api.AttachMetadataToObject nfs.fileSystemID
        ((GoMap.empty.set "host.k8s.pvname" nfs.pVName).set "filesystem_type" "") st).1 = some err ∧
      (nfs.attachMetadata api st).val = (none, some err)) ∨
    ((api.AttachMetadataToObject nfs.fileSystemID
        ((GoMap.empty.set "host.k8s.pvname" nfs.pVName).set "filesystem_type" "") st).1 = none ∧
      ∃ vol, (nfs.attachMetadata api st).val = (some vol, none)) := by
  unfold nfsstorage.attachMetadata
  simp only []
  split
  · rename_i err h; exact Or.inl ⟨err, h, rfl⟩
  · rename_i h; exact Or.inr ⟨h, _, rfl⟩

/-! ## The compensation chain of `CreateNFSVolume` -/

/-- After a successful validation and filesystem creation, `CreateNFSVolume`
is the rest of the body followed by the filesystem deferred function. -/
theorem CreateNFSVolume_created {σ : Type} (api : Api σ) (nfs : nfsstorage) (st s1 : σ)
    (nw : String) (f : NfsRun σ (Option GoError))
    (hval : api.OneTimeValidation (nfs.configmap.get "pool_name")
      (nfs.configmap.get "nfs_networkspace") st = ((nw, none), s1))
    (hfs : nfsstorage.createFileSystem
      { nfs with configmap := nfs.configmap.set "nfs_networkspace" nw } api s1 = f)
    (hcreated : f.val = none) :
    (nfs.CreateNFSVolume api st).val
        = (nfsstorage.revertFileSystem api (f.nfs.exportAndAttach api f.st)).val ∧
    (nfs.CreateNFSVolume api st).calls
        = [.OneTimeValidation (nfs.configmap.get "pool_name") (nfs.configmap.get "nfs_networkspace")]
          ++ f.calls ++ (nfsstorage.revertFileSystem api (f.nfs.exportAndAttach api f.st)).calls := by
  unfold nfsstorage.CreateNFSVolume
  simp only [hval, hfs, hcreated, and_self]

theorem revertFileSystem_val {σ : Type} (api : Api σ)
    (r : NfsRun σ (Option infinidatVolume × Option GoError)) :
    (nfsstorage.revertFileSystem api r).val = r.val := by
  unfold nfsstorage.revertFileSystem
  split <;> rfl

theorem revertFileSystem_calls {σ : Type} (api : Api σ)
    (r : NfsRun σ (Option infinidatVolume × Option GoError)) :
    (nfsstorage.revertFileSystem api r).calls
      = r.calls ++ (if r.val.2 ≠ none ∧ r.nfs.fileSystemID ≠ 0
          then [Call.DeleteFileSystem r.nfs.fileSystemID] else []) := by
  unfold nfsstorage.revertFileSystem
  split <;> simp

theorem revertExportPath_val {σ : Type} (api : Api σ)
    (r : NfsRun σ (Option infinidatVolume × Option GoError)) :
    (nfsstorage.revertExportPath api r).val = r.val := by
  unfold nfsstorage.revertExportPath
  split <;> rfl

theorem revertExportPath_nfs {σ : Type} (api : Api σ)
    (r : NfsRun σ (Option infinidatVolume × Option GoError)) :
    (nfsstorage.revertExportPath api r).nfs = r.nfs := by
  unfold nfsstorage.revertExportPath
  split <;> rfl

theorem revertExportPath_calls {σ : Type} (api : Api σ)
    (r : NfsRun σ (Option infinidatVolume × Option GoError)) :
    (nfsstorage.revertExportPath api r).calls
      = r.calls ++ (if r.val.2 ≠ none ∧ r.nfs.exportID ≠ 0
          then [Call.DeleteExportPath r.nfs.exportID] else []) := by
  unfold nfsstorage.revertExportPath
  split <;> simp

/-- The rest of the body when the export cannot be created. -/
theorem exportAndAttach_export_failed {σ : Type} (api : Api σ) (nfs : nfsstorage) (st : σ)
    (err : GoError) (h : (nfs.createExportPath api st).val = some err) :
    (nfs.exportAndAttach api st).val = (none, some err) ∧
    (nfs.exportAndAttach api st).nfs.fileSystemID = nfs.fileSystemID ∧
    (nfs.exportAndAttach api st).calls = (nfs.createExportPath api st).calls := by
  unfold nfsstorage.exportAndAttach
  simp only [h]
  exact ⟨trivial, createExportPath_fileSystemID nfs api st, trivial⟩

/-- The rest of the body when the export is created and the address of the
network space cannot be resolved. -/
theorem exportAndAttach_ip_failed {σ : Type} (api : Api σ) (nfs : nfsstorage) (st s3 : σ)
    (ip : String) (err : GoError) (h : (nfs.createExportPath api st).val = none)
    (hip : api.getNetworkSpaceIP (nfs.createExportPath api st).nfs.configmap
      (nfs.createExportPath api st).st = ((ip, some err), s3)) :
    (nfs.exportAndAttach api st).val = (none, some err) ∧
    (nfs.exportAndAttach api st).nfs.fileSystemID = nfs.fileSystemID ∧
    (nfs.exportAndAttach api st).calls = (nfs.createExportPath api st).calls
      ++ [.getNetworkSpaceIP (nfs.createExportPath api st).nfs.configmap] := by
  unfold nfsstorage.exportAndAttach
  simp only [h, hip]
  exact ⟨trivial, createExportPath_fileSystemID nfs api st, trivial⟩

/-- The rest of the body when the export is created and the address is
resolved: the metadata step followed by the export deferred function. -/
theorem exportAndAttach_ip_resolved {σ : Type} (api : Api σ) (nfs : nfsstorage) (st s3 : σ)
    (ip : String) (h : (nfs.createExportPath api st).val = none)
    (hip : api.getNetworkSpaceIP (nfs.createExportPath api st).nfs.configmap
      (nfs.createExportPath api st).st = ((ip, none), s3)) :
    (nfs.exportAndAttach api st).val
      = (nfsstorage.attachMetadata { (nfs.createExportPath api st).nfs with ipAddress := ip }
          api s3).val ∧
    (nfs.exportAndAttach api st).nfs.fileSystemID = nfs.fileSystemID ∧
    (nfs.exportAndAttach api st).calls = (nfs.createExportPath api st).calls
      ++ [.getNetworkSpaceIP (nfs.createExportPath api st).nfs.configmap]
      ++ (nfsstorage.revertExportPath api (nfsstorage.attachMetadata
          { (nfs.createExportPath api st).nfs with ipAddress := ip } api s3)).calls := by
  unfold nfsstorage.exportAndAttach
  simp only [h, hip]
  refine ⟨revertExportPath_val _ _, ?_, trivial⟩
  simp only [revertExportPath_nfs, attachMetadata_nfs]
  exact createExportPath_fileSystemID nfs api st

theorem exportAndAttach_volume_or_error {σ : Type} (nfs : nfsstorage) (api : Api σ) (st : σ) :
    (nfs.exportAndAttach api st).val ≠ (none, none) := by
  unfold nfsstorage.exportAndAttach
  simp only []
  split
  · simp
  · split
    · simp
    · simp only [revertExportPath_val]
      rcases attachMetadata_val
        { (nfs.createExportPath api st).nfs with
          ipAddress := (api.getNetworkSpaceIP (nfs.createExportPath api st).nfs.configmap
            (nfs.createExportPath api st).st).1.1 } api
        (api.getNetworkSpaceIP (nfs.createExportPath api st).nfs.configmap
          (nfs.createExportPath api st).st).2 with ⟨err, _, h⟩ | ⟨_, vol, h⟩ <;>
        rw [h] <;> simp

/-- The method `CreateNFSVolume` never returns a nil volume with a nil error. -/
theorem CreateNFSVolume_volume_or_error {σ : Type} (nfs : nfsstorage) (api : Api σ) (st : σ) :
    (nfs.CreateNFSVolume api st).val ≠ (none, none) := by
  unfold nfsstorage.CreateNFSVolume
  simp only []
  split
  · simp
  · split
    · simp
    · simp only [revertFileSystem_val]
      exact exportAndAttach_volume_or_error _ api _

/-- The error branch of `CreateVolume`: an error of `CreateNFSVolume` is
returned as it is, with an empty response. -/
theorem CreateVolume_of_error {σ : Type} (api : Api σ) (nfs : nfsstorage)
    (req : csi.CreateVolumeRequest) (st : σ) (err : GoError)
    (hv : (validateParameter req.Parameters).1 = true)
    (h : ((nfs.assignRequest req).CreateNFSVolume api st).val.2 = some err) :
    (nfs.CreateVolume api req st).val = (some ⟨none⟩, some err) ∧
    (nfs.CreateVolume api req st).calls = ((nfs.assignRequest req).CreateNFSVolume api st).calls := by
  unfold nfsstorage.CreateVolume
  simp only [hv, not_true_eq_false, if_false]
  split
  · rename_i x e heq
    rw [heq] at h
    simp only [Option.some.injEq] at h
    subst h
    exact ⟨rfl, rfl⟩
  · rename_i heq; rw [heq] at h; simp at h
  · rename_i heq; rw [heq] at h; simp at h

theorem createExportPath_no_revert {σ : Type} (nfs : nfsstorage) (api : Api σ) (st : σ) :
    (nfs.createExportPath api st).calls.filter Call.isDeleteFileSystem = [] ∧
    (nfs.createExportPath api st).calls.filter Call.isDeleteExportPath = [] := by
  obtain ⟨e0, he0⟩ := createExportPath_calls nfs api st
  rw [he0]
  simp [List.filter, Call.isDeleteFileSystem, Call.isDeleteExportPath]

theorem revertFileSystem_keeps_export_calls {σ : Type} (api : Api σ)
    (r : NfsRun σ (Option infinidatVolume × Option GoError)) :
    (nfsstorage.revertFileSystem api r).calls.filter Call.isDeleteExportPath
      = r.calls.filter Call.isDeleteExportPath := by
  rw [revertFileSystem_calls, List.filter_append]
  split <;> simp [List.filter, Call.isDeleteExportPath]

theorem attachMetadata_failed {σ : Type} (nfs : nfsstorage) (api : Api σ) (st : σ) (err : GoError)
    (h : (api.AttachMetadataToObject nfs.fileSystemID
        ((GoMap.empty.set "host.k8s.pvname" nfs.pVName).set "filesystem_type" "") st).1 = some err) :
    (nfs.attachMetadata api st).val = (none, some err) := by
  unfold nfsstorage.attachMetadata
  simp only [h]

theorem assignRequest_capacity (nfs : nfsstorage) (req : csi.CreateVolumeRequest) :
    (nfs.assignRequest req).capacity = floorCapacity (csi.GetRequiredBytes req.CapacityRange) := by
  unfold nfsstorage.assignRequest
  simp only [floor_eq]

/-- The identifier in a volume returned by the quota strategy's `CreateVolume`
is built from the returned context map and the configured ceiling. -/
theorem treeq_CreateVolume_volumeId {σ : Type} (treeq : treeqstorage σ) (key : String)
    (req : csi.CreateVolumeRequest) (st : σ) (vol : csi.Volume)
    (h : (treeq.CreateVolume key req st).val.1 = some ⟨some vol⟩) :
    vol.VolumeId = vol.VolumeContext.get "ID" ++ "#" ++ vol.VolumeContext.get "TREEQID" ++ "#"
      ++ req.Parameters.get key := by
  unfold treeqstorage.CreateVolume at h
  simp only [] at h
  split at h
  · simp at h
  · split at h
    · simp at h
    · simp only [Option.some.injEq, csi.CreateVolumeResponse.mk.injEq] at h
      subst h
      rfl

/-! ## Decoding of the exclusive identifier -/

theorem digitChar_ne_dollar (d : Nat) (h : d < 10) : digitChar d ≠ '$' := by
  have key : ∀ k : Fin 10, digitChar k.val ≠ '$' := by decide
  exact key ⟨d, h⟩

/-- A string without the first character of the separator is not split. -/
theorem splitGo_first_absent (c0 : Char) (t s : List Char) (h : c0 ∉ s) :
    splitGo (c0 :: t) 0 s = [s] := by
  induction s with
  | nil => simp [splitGo]
  | cons c cs ih =>
    have hc : c0 ≠ c := by intro e; apply h; simp [e]
    have hcs : c0 ∉ cs := by intro e; apply h; simp [e]
    unfold splitGo
    have hp : List.isPrefixOf (c0 :: t) (c :: cs) = false := by
      simp [List.isPrefixOf, hc]
    simp [hp, ih hcs]

theorem FormatInt_no_dollar (n : Int) : '$' ∉ (FormatInt n).data := by
  unfold FormatInt
  split
  · intro hc
    simp only [List.mem_cons] at hc
    rcases hc with hc | hc
    · exact absurd hc (by decide)
    · obtain ⟨d, hd, he⟩ := formatUintFuel_digits _ _ _ hc
      exact digitChar_ne_dollar d hd he.symm
  · intro hc
    obtain ⟨d, hd, he⟩ := formatUintFuel_digits _ _ _ hc
    exact digitChar_ne_dollar d hd he.symm

/-- Splitting a decimal rendering on `$$` leaves it whole. -/
theorem stringsSplit_FormatInt (n : Int) : stringsSplit (FormatInt n) "$$" = [FormatInt n] := by
  unfold stringsSplit
  have hs : ("$$" : String).data = ['$', '$'] := rfl
  rw [hs, if_neg (by simp), splitGo_first_absent _ _ _ (FormatInt_no_dollar n)]
  rfl

/-- Parsing the decimal rendering of any 64-bit integer gives the integer
back, without error. -/
theorem ParseInt_FormatInt_int64 (n : Int) (h0 : -(2 ^ 63) ≤ n) (h1 : n < 2 ^ 63) :
    ParseInt (FormatInt n) = (n, none) := by
  by_cases hn : 0 ≤ n
  · exact ParseInt_FormatInt n hn h1
  · have hneg : n < 0 := by omega
    obtain ⟨m, hm⟩ : ∃ m : Nat, n = -(m : Int) := ⟨n.natAbs, by omega⟩
    subst hm
    have hm0 : m ≤ 2 ^ 63 := by omega
    have hfmt : FormatInt (-(m : Int)) = String.mk ('-' :: formatUintFuel (m + 1) m) := by
      unfold FormatInt
      simp [hneg]
    rw [hfmt]
    unfold ParseInt
    have hp := ParseUint_format (m + 1) m (by omega) (by omega)
    have h3 : ¬ (9223372036854775808 < m) := by omega
    simp [hp, h3]

/-! ## Delete path -/

theorem string_data_length_zero (s : String) : s.data.length = 0 ↔ s = "" := by
  cases s with
  | mk d =>
    constructor
    · intro h
      have hd : d = [] := List.length_eq_zero.mp h
      subst hd
      rfl
    · intro h
      rw [h]
      rfl

theorem ParseInt_empty : (ParseInt "").2 ≠ none := by decide

theorem getVolumeIDs_empty : (getVolumeIDs "").2.2.2 ≠ none := by decide

/-- The method `DeleteVolume` of the exclusive strategy answers every
non-empty identifier with an empty response and a nil error. -/
theorem nfs_DeleteVolume_val {σ : Type} (nfs : nfsstorage) (api : Api σ) (volumeID : String)
    (st : σ) (hne : volumeID ≠ "") :
    (nfs.DeleteVolume api ⟨volumeID⟩ st).val = (some {}, none) := by
  unfold nfsstorage.DeleteVolume
  have h0 : ¬ (volumeID.data.length = 0) := fun h => hne ((string_data_length_zero _).mp h)
  simp only [h0, if_false]
  split
  · rfl
  · split <;> rfl

/-- For an identifier that parses, `DeleteVolume` of the exclusive strategy
runs `DeleteNFSVolume` on the parsed id and makes the same calls. -/
theorem nfs_DeleteVolume_calls {σ : Type} (nfs : nfsstorage) (api : Api σ) (volumeID : String)
    (st : σ) (n : Int) (hdecode : ParseInt volumeID = (n, none)) :
    (nfs.DeleteVolume api ⟨volumeID⟩ st).calls
      = (nfsstorage.DeleteNFSVolume { nfs with uniqueID := n } api st).calls := by
  have hne : volumeID ≠ "" := by
    intro h
    rw [h] at hdecode
    exact ParseInt_empty (by rw [hdecode])
  unfold nfsstorage.DeleteVolume
  have h0 : ¬ (volumeID.data.length = 0) := fun h => hne ((string_data_length_zero _).mp h)
  simp only [h0, if_false, hdecode]
  split <;> rfl

/-! ## The identifier produced and decoded by the exclusive strategy -/

/-- The volume that the metadata step builds from the receiver. -/
theorem attachMetadata_volume {σ : Type} (nfs : nfsstorage) (api : Api σ) (st : σ)
    (vol : infinidatVolume) (h : (nfs.attachMetadata api st).val.1 = some vol) :
    vol = {
      VolName := nfs.pVName
      VolID := FormatInt nfs.fileSystemID
      VolSize := nfs.capacity
      VolPath := nfs.exportpath
      IpAddress := nfs.ipAddress
      ExportID := nfs.exportID
      FileSystemID := nfs.fileSystemID
      ExportBlock := nfs.exportBlock } := by
  unfold nfsstorage.attachMetadata at h
  simp only [] at h
  split at h
  · simp at h
  · simp only [Option.some.injEq] at h
    exact h.symm

/-- The identifier of a volume returned by `CreateNFSVolume` is the decimal
rendering of its filesystem id. -/
theorem CreateNFSVolume_volID {σ : Type} (nfs : nfsstorage) (api : Api σ) (st : σ)
    (vol : infinidatVolume) (h : (nfs.CreateNFSVolume api st).val.1 = some vol) :
    vol.VolID = FormatInt vol.FileSystemID := by
  unfold nfsstorage.CreateNFSVolume at h
  simp only [] at h
  split at h
  · simp at h
  · split at h
    · simp at h
    · simp only [revertFileSystem_val] at h
      unfold nfsstorage.exportAndAttach at h
      simp only [] at h
      split at h
      · simp at h
      · split at h
        · simp at h
        · simp only [revertExportPath_val] at h
          rw [attachMetadata_volume _ api _ vol h]

/-- The call made by `ControllerExpandVolume` of the exclusive strategy for
an identifier whose part before the first `$$` parses to `n`. -/
theorem nfs_ControllerExpandVolume_decoded {σ : Type} (nfs : nfsstorage) (api : Api σ)
    (volumeID first : String) (rest : List String) (c limit : Int) (st : σ) (n : Int)
    (hne : volumeID ≠ "")
    (hsplit : stringsSplit volumeID "$$" = first :: rest)
    (hdecode : ParseInt first = (n, none)) :
    (nfs.ControllerExpandVolume api ⟨volumeID, some ⟨c, limit⟩⟩ st).calls
      = [.UpdateFilesystem n ⟨0, 0, "", false, "", max c 1073741824⟩] ∧
    ((api.UpdateFilesystem n ⟨0, 0, "", false, "", max c 1073741824⟩ st).1 = none →
      (nfs.ControllerExpandVolume api ⟨volumeID, some ⟨c, limit⟩⟩ st).val
        = (some ⟨max c 1073741824, false⟩, none)) ∧
    (∀ err, (api.UpdateFilesystem n ⟨0, 0, "", false, "", max c 1073741824⟩ st).1 = some err →
      (nfs.ControllerExpandVolume api ⟨volumeID, some ⟨c, limit⟩⟩ st).val
        = (some ⟨0, false⟩, some err)) := by
  have hfloor : (if c < gib then gib else c) = max c 1073741824 := by
    rw [floor_eq, floorCapacity_eq_max]
  unfold nfsstorage.ControllerExpandVolume
  simp only [hne, if_false, hsplit, hdecode, csi.GetRequiredBytes, hfloor]
  have hsome : ¬ ((some ⟨c, limit⟩ : Option csi.CapacityRange) = none) := by simp
  simp only [hsome, if_false]
  refine ⟨?_, ?_, ?_⟩
  · split <;> rfl
  · intro h; simp only [h]
  · intro err h; simp only [h]

theorem FormatInt_ne_empty (n : Int) : FormatInt n ≠ "" := by
  unfold FormatInt
  split
  · intro h
    have := congrArg String.data h
    simp at this
  · intro h
    have := congrArg String.data h
    exact formatUintFuel_ne_nil _ _ this

/-! ## The delete sequence of `DeleteNFSVolume` -/

/-- When every deletion succeeds, the loop deletes the listed exports in
order, each once. -/
theorem deleteExports_all {σ : Type} (api : Api σ) (l : List ExportResponse) (st : σ)
    (h : (deleteExports api l st).val = none) :
    (deleteExports api l st).calls = l.map (fun ep => Call.DeleteExportPath ep.ID) := by
  induction l generalizing st with
  | nil => rfl
  | cons a l ih =>
    unfold deleteExports at h ⊢
    simp only [] at h ⊢
    split at h
    · simp at h
    · rename_i hd
      simp only [hd, List.map_cons, List.cons.injEq, true_and]
      exact ih _ h

/-- When the exports `pre` are deleted and the deletion of `ep` fails, the
loop stops there: it returns that error and has made no call for the
exports after `ep`. -/
theorem deleteExports_stops {σ : Type} (api : Api σ) (pre post : List ExportResponse)
    (ep : ExportResponse) (st : σ) (err : GoError)
    (hpre : (deleteExports api pre st).val = none)
    (hep : (api.DeleteExportPath ep.ID (deleteExports api pre st).st).1 = some err) :
    (deleteExports api (pre ++ ep :: post) st).val = some err ∧
    (deleteExports api (pre ++ ep :: post) st).calls
      = (pre ++ [ep]).map (fun e => Call.DeleteExportPath e.ID) := by
  induction pre generalizing st with
  | nil =>
    simp only [deleteExports] at hep
    simp only [List.nil_append, deleteExports, hep, List.map_cons, List.map_nil, and_self]
  | cons a pre ih =>
    unfold deleteExports at hpre hep
    simp only [] at hpre hep
    split at hpre
    · simp at hpre
    · rename_i hd
      simp only [hd] at hep
      have := ih _ hpre hep
      simp only [List.cons_append, deleteExports, hd, List.map_cons, List.cons.injEq, true_and]
      exact this

/-- The loop either deletes every listed export, or stops at the first export
whose deletion fails. -/
theorem deleteExports_cases {σ : Type} (api : Api σ) (l : List ExportResponse) (st : σ) :
    (deleteExports api l st).val = none ∨
    ∃ pre ep post err, l = pre ++ ep :: post ∧ (deleteExports api pre st).val = none ∧
      (api.DeleteExportPath ep.ID (deleteExports api pre st).st).1 = some err := by
  induction l generalizing st with
  | nil => exact Or.inl rfl
  | cons a l ih =>
    cases hd : (api.DeleteExportPath a.ID st).1 with
    | some err => exact Or.inr ⟨[], a, l, err, rfl, rfl, hd⟩
    | none =>
      rcases ih (api.DeleteExportPath a.ID st).2 with h | ⟨pre, ep, post, err, hl, hp, he⟩
      · left
        simp only [deleteExports, hd]
        exact h
      · right
        refine ⟨a :: pre, ep, post, err, by rw [hl]; rfl, ?_, ?_⟩
        · simp only [deleteExports, hd]
          exact hp
        · simp only [deleteExports, hd]
          exact he

/-! ## Reading a map after writing to it -/

theorem beq_false_of_ne_string (a b : String) (h : a ≠ b) : (a == b) = false := by
  cases hab : a == b with
  | false => rfl
  | true => exact absurd (eq_of_beq hab) h

theorem lookup_replace (l : List (String × String)) (k v k' : String) :
    (l.map (fun p => if p.1 == k then (k, v) else p)).lookup k'
      = if k' = k then (if l.any (fun p => p.1 == k) then some v else none)
        else l.lookup k' := by
  induction l with
  | nil => simp
  | cons p l ih =>
    obtain ⟨a, b⟩ := p
    rw [List.map_cons, List.any_cons]
    by_cases hak : a = k
    · subst hak
      have hf : (if ((a, b) : String × String).1 == a then (a, v) else (a, b)) = (a, v) := by
        simp
      rw [hf, List.lookup_cons]
      by_cases hk : k' = a
      · subst hk
        simp
      · rw [beq_false_of_ne_string _ _ hk, ih, if_neg hk, if_neg hk, List.lookup_cons,
          beq_false_of_ne_string _ _ hk]
    · have hak2 : (a == k) = false := beq_false_of_ne_string _ _ hak
      have hf : (if ((a, b) : String × String).1 == k then (k, v) else (a, b)) = (a, b) := by
        simp [hak2]
      rw [hf, List.lookup_cons, ih]
      by_cases hk : k' = k
      · subst hk
        rw [beq_false_of_ne_string _ _ (Ne.symm hak), if_pos rfl, if_pos rfl, hak2,
          Bool.false_or]
      · rw [if_neg hk, if_neg hk, List.lookup_cons]

theorem lookup_none_of_not_any (l : List (String × String)) (k : String)
    (h : l.any (fun p => p.1 == k) = false) : l.lookup k = none := by
  induction l with
  | nil => rfl
  | cons p l ih =>
    obtain ⟨a, b⟩ := p
    rw [List.any_cons, Bool.or_eq_false_iff] at h
    have hak : a ≠ k := by
      intro e
      have h1 := h.1
      rw [e] at h1
      simp at h1
    rw [List.lookup_cons, beq_false_of_ne_string _ _ (Ne.symm hak)]
    exact ih h.2

/-- Reading `k'` after the assignment `m[k] = v`. -/
theorem GoMap.get_set (m : GoMap) (k v k' : String) :
    (m.set k v).get k' = if k' = k then v else m.get k' := by
  unfold GoMap.set GoMap.get
  by_cases hany : m.entries.any (fun p => p.1 == k) = true
  · rw [if_pos hany]
    simp only [lookup_replace, hany, if_true]
    by_cases hk : k' = k
    · simp [hk]
    · simp [hk]
  · have hany2 : m.entries.any (fun p => p.1 == k) = false := Bool.eq_false_iff.mpr hany
    rw [if_neg hany]
    simp only [List.lookup_append]
    by_cases hk : k' = k
    · subst hk
      rw [lookup_none_of_not_any _ _ hany2]
      simp
    · rw [if_neg hk, List.lookup_cons, beq_false_of_ne_string _ _ hk]
      cases m.entries.lookup k' <;> simp

/-! ## The successful creation -/

/-- The method `createFileSystem` changes no field of the receiver but
`fileSystemID`. -/
theorem createFileSystem_fields {σ : Type} (nfs : nfsstorage) (api : Api σ) (st : σ) :
    (nfs.createFileSystem api st).nfs.pVName = nfs.pVName ∧
    (nfs.createFileSystem api st).nfs.capacity = nfs.capacity ∧
    (nfs.createFileSystem api st).nfs.exportpath = nfs.exportpath ∧
    (nfs.createFileSystem api st).nfs.configmap = nfs.configmap := by
  unfold nfsstorage.createFileSystem
  simp only []
  split
  · exact ⟨rfl, rfl, rfl, rfl⟩
  · split
    · exact ⟨rfl, rfl, rfl, rfl⟩
    · split
      · exact ⟨rfl, rfl, rfl, rfl⟩
      · split <;> exact ⟨rfl, rfl, rfl, rfl⟩

/-- A successful `createFileSystem` has asked the backend for a filesystem of
the receiver's capacity. -/
theorem createFileSystem_requested {σ : Type} (nfs : nfsstorage) (api : Api σ) (st : σ)
    (h : (nfs.createFileSystem api st).val = none) :
    ∃ fileSys, Call.CreateFilesystem fileSys ∈ (nfs.createFileSystem api st).calls ∧
      fileSys.Size = nfs.capacity := by
  unfold nfsstorage.createFileSystem at h ⊢
  simp only [] at h ⊢
  split at h
  · simp at h
  · split at h
    · simp at h
    · split at h
      · simp at h
      · split at h
        · simp at h
        · rename_i _ h1 h2 _ h3 _ h4
          simp only [h1, h2, h3, h4, if_false]
          exact ⟨_, List.mem_append_right _ (List.mem_singleton_self _), rfl⟩

/-- The method `createExportPath` changes no field of the receiver but
`exportID` and `exportBlock`. -/
theorem createExportPath_fields {σ : Type} (nfs : nfsstorage) (api : Api σ) (st : σ) :
    (nfs.createExportPath api st).nfs.pVName = nfs.pVName ∧
    (nfs.createExportPath api st).nfs.capacity = nfs.capacity ∧
    (nfs.createExportPath api st).nfs.exportpath = nfs.exportpath ∧
    (nfs.createExportPath api st).nfs.configmap = nfs.configmap := by
  unfold nfsstorage.createExportPath
  simp only []
  split <;> exact ⟨rfl, rfl, rfl, rfl⟩

theorem attachMetadata_succeeded {σ : Type} (nfs : nfsstorage) (api : Api σ) (st : σ)
    (h : (api.AttachMetadataToObject nfs.fileSystemID
        ((GoMap.empty.set "host.k8s.pvname" nfs.pVName).set "filesystem_type" "") st).1 = none) :
    (nfs.attachMetadata api st).val = (some {
      VolName := nfs.pVName
      VolID := FormatInt nfs.fileSystemID
      VolSize := nfs.capacity
      VolPath := nfs.exportpath
      IpAddress := nfs.ipAddress
      ExportID := nfs.exportID
      FileSystemID := nfs.fileSystemID
      ExportBlock := nfs.exportBlock }, none) := by
  unfold nfsstorage.attachMetadata
  simp only [h]

/-- The volume branch of `CreateVolume`: the response built from the volume
that `CreateNFSVolume` returns. -/
theorem CreateVolume_of_volume {σ : Type} (api : Api σ) (nfs : nfsstorage)
    (req : csi.CreateVolumeRequest) (st : σ) (v : infinidatVolume)
    (hv : (validateParameter req.Parameters).1 = true)
    (h : ((nfs.assignRequest req).CreateNFSVolume api st).val = (some v, none)) :
    (nfs.CreateVolume api req st).calls = ((nfs.assignRequest req).CreateNFSVolume api st).calls ∧
    ∃ vol, (nfs.CreateVolume api req st).val = (some ⟨some vol⟩, none) ∧
      vol.VolumeId = v.VolID ∧
      vol.CapacityBytes = floorCapacity (csi.GetRequiredBytes req.CapacityRange) ∧
      vol.ContentSource = req.VolumeContentSource ∧
      vol.VolumeContext.get "ipAddress" = v.IpAddress ∧
      vol.VolumeContext.get "volPathd" = v.VolPath ∧
      vol.VolumeContext.get "volID" = v.VolID ∧
      vol.VolumeContext.get "volSize" = FormatInt v.VolSize ∧
      vol.VolumeContext.get "exportID" = FormatInt v.ExportID ∧
      vol.VolumeContext.get "fileSystemID" = FormatInt v.FileSystemID ∧
      vol.VolumeContext.get "exportBlock" = v.ExportBlock := by
  unfold nfsstorage.CreateVolume
  simp only [hv, not_true_eq_false, if_false, h]
  refine ⟨trivial, _, rfl, rfl, assignRequest_capacity nfs req, rfl, ?_, ?_, ?_, ?_, ?_, ?_, ?_⟩ <;>
    simp +decide only [GoMap.get_set, if_true, if_false]

/-! ## The guard of the filesystem compensation -/

/-- The calls made after the filesystem creation and before the filesystem
deferred function: the export creation, the address resolution, the
metadata step and the deletion of the export. -/
theorem exportAndAttach_calls {σ : Type} (nfs : nfsstorage) (api : Api σ) (st : σ) :
    ∀ c ∈ (nfs.exportAndAttach api st).calls,
      (∃ e, c = .ExportFileSystem e) ∨ (∃ m, c = .getNetworkSpaceIP m) ∨
      (∃ i m, c = .AttachMetadataToObject i m) ∨ (∃ i, c = .DeleteExportPath i) := by
  obtain ⟨e0, he0⟩ := createExportPath_calls nfs api st
  intro c hc
  unfold nfsstorage.exportAndAttach at hc
  simp only [] at hc
  split at hc
  · simp only [he0, List.mem_singleton] at hc
    exact Or.inl ⟨_, hc⟩
  · split at hc
    · simp only [he0, List.mem_append, List.mem_singleton] at hc
      rcases hc with hc | hc
      · exact Or.inl ⟨_, hc⟩
      · exact Or.inr (Or.inl ⟨_, hc⟩)
    · obtain ⟨i, m, hac⟩ := attachMetadata_calls
        { (nfs.createExportPath api st).nfs with
          ipAddress := (api.getNetworkSpaceIP (nfs.createExportPath api st).nfs.configmap
            (nfs.createExportPath api st).st).1.1 } api
        (api.getNetworkSpaceIP (nfs.createExportPath api st).nfs.configmap
          (nfs.createExportPath api st).st).2
      simp only [he0, revertExportPath_calls, hac, List.mem_append, List.mem_singleton] at hc
      rcases hc with (hc | hc) | hc | hc
      · exact Or.inl ⟨_, hc⟩
      · exact Or.inr (Or.inl ⟨_, hc⟩)
      · exact Or.inr (Or.inr (Or.inl ⟨_, _, hc⟩))
      · split at hc
        · simp only [List.mem_singleton] at hc
          exact Or.inr (Or.inr (Or.inr ⟨_, hc⟩))
        · simp at hc

theorem exportAndAttach_no_filesystem_delete {σ : Type} (nfs : nfsstorage) (api : Api σ)
    (st : σ) : (nfs.exportAndAttach api st).calls.filter Call.isDeleteFileSystem = [] := by
  rw [List.filter_eq_nil_iff]
  intro c hc
  rcases exportAndAttach_calls nfs api st c hc with ⟨e, rfl⟩ | ⟨m, rfl⟩ | ⟨i, m, rfl⟩ | ⟨i, rfl⟩ <;>
    simp [Call.isDeleteFileSystem]

/-- The steps after the filesystem creation leave the recorded filesystem id
as it is. -/
theorem exportAndAttach_fileSystemID {σ : Type} (nfs : nfsstorage) (api : Api σ) (st : σ) :
    (nfs.exportAndAttach api st).nfs.fileSystemID = nfs.fileSystemID := by
  have he := createExportPath_fileSystemID nfs api st
  unfold nfsstorage.exportAndAttach
  simp only []
  split
  · exact he
  · split
    · exact he
    · simp only [revertExportPath_nfs, attachMetadata_nfs]
      exact he

/-- Once the filesystem is created, the `DeleteFileSystem` calls of
`CreateNFSVolume` are decided by the filesystem deferred function alone:
one call, with the recorded id, when an error is returned and the id is not
zero, and none otherwise. -/
theorem CreateNFSVolume_filesystem_deletes {σ : Type} (api : Api σ) (nfs : nfsstorage)
    (st s1 : σ) (nw : String) (f : NfsRun σ (Option GoError))
    (hval : api.OneTimeValidation (nfs.configmap.get "pool_name")
      (nfs.configmap.get "nfs_networkspace") st = ((nw, none), s1))
    (hfs : nfsstorage.createFileSystem
      { nfs with configmap := nfs.configmap.set "nfs_networkspace" nw } api s1 = f)
    (hcreated : f.val = none) :
    (nfs.CreateNFSVolume api st).calls.filter Call.isDeleteFileSystem
      = if (nfs.CreateNFSVolume api st).val.2 ≠ none ∧ f.nfs.fileSystemID ≠ 0
        then [.DeleteFileSystem f.nfs.fileSystemID] else [] := by
  obtain ⟨hv, hc⟩ := CreateNFSVolume_created api nfs st s1 nw f hval hfs hcreated
  have hf : f.calls.filter Call.isDeleteFileSystem = [] := by
    rw [← hfs]; exact (createFileSystem_no_revert _ api s1).1
  rw [hc, hv, revertFileSystem_val, revertFileSystem_calls, exportAndAttach_fileSystemID]
  simp only [List.filter_append, hf, exportAndAttach_no_filesystem_delete, List.append_nil,
    List.nil_append]
  split
  · simp [List.filter, Call.isDeleteFileSystem]
  · simp [List.filter, Call.isDeleteFileSystem]

/-- The filesystem id recorded by a successful `createFileSystem` is the id
of the filesystem that `CreateFilesystem` returned. -/
theorem createFileSystem_recorded {σ : Type} (nfs : nfsstorage) (api : Api σ) (st : σ)
    (h : (nfs.createFileSystem api st).val = none) :
    ∃ fileSys s, Call.CreateFilesystem fileSys ∈ (nfs.createFileSystem api st).calls ∧
      (api.CreateFilesystem fileSys s).1.2 = none ∧
      (nfs.createFileSystem api st).nfs.fileSystemID = (api.CreateFilesystem fileSys s).1.1.ID := by
  unfold nfsstorage.createFileSystem at h ⊢
  simp only [] at h ⊢
  split at h
  · simp at h
  · split at h
    · simp at h
    · split at h
      · simp at h
      · split at h
        · simp at h
        · rename_i _ h1 h2 _ h3 _ h4
          simp only [h1, h2, h3, h4, if_false]
          exact ⟨_, _, List.mem_append_right _ (List.mem_singleton_self _), h4, rfl⟩

/-! ## The part of the identifier before the first `$$` -/

theorem containsGo_dollar_absent (s : List Char) (h : '$' ∉ s) :
    containsGo ['$', '$'] (s ++ ['$']) = false := by
  induction s with
  | nil => decide
  | cons c cs ih =>
    have hc : '$' ≠ c := by intro e; apply h; rw [e]; exact List.mem_cons_self _ _
    have hcs : '$' ∉ cs := by intro e; apply h; exact List.mem_cons_of_mem _ e
    simp [containsGo, List.isPrefixOf, hc, ih hcs]

/-- When `$$` does not occur in `a` followed by one `$`, the first `$$` of
`a ++ "$$" ++ b` is the one after `a`, and the split starts with `a`. -/
theorem splitGo_dollar_first (a b : List Char)
    (h : containsGo ['$', '$'] (a ++ ['$']) = false) :
    splitGo ['$', '$'] 0 (a ++ '$' :: '$' :: b) = a :: splitGo ['$', '$'] 0 b := by
  induction a with
  | nil => simp [splitGo, List.isPrefixOf]
  | cons c cs ih =>
    simp only [List.cons_append, containsGo, Bool.or_eq_false_iff] at h
    obtain ⟨hp, hrest⟩ := h
    have hp2 : List.isPrefixOf ['$', '$'] (c :: (cs ++ '$' :: '$' :: b)) = false := by
      cases cs with
      | nil =>
        simp only [List.nil_append, List.isPrefixOf, Bool.and_true] at hp ⊢
        have hc : ('$' == c) = false := by
          cases hx : ('$' == c) with
          | false => rfl
          | true => rw [hx] at hp; simp at hp
        simp [hc]
      | cons d ds =>
        simp only [List.cons_append, List.isPrefixOf, Bool.and_true] at hp ⊢
        exact hp
    simp only [List.cons_append]
    rw [splitGo]
    simp only [hp2, Bool.false_eq_true, if_false, ih hrest]

/-- The split of `lead ++ "$$" ++ rest` starts with `lead`, when the first
`$$` is the one after `lead`. -/
theorem stringsSplit_leading (lead rest : String)
    (h : stringsContains (lead ++ "$") "$$" = false) :
    ∃ tail, stringsSplit (lead ++ "$$" ++ rest) "$$" = lead :: tail := by
  unfold stringsContains at h
  have h1 : (lead ++ "$").data = lead.data ++ ['$'] := by simp [String.data_append]
  have h2 : ("$$" : String).data = ['$', '$'] := rfl
  rw [h1, h2] at h
  unfold stringsSplit
  have e : (lead ++ "$$" ++ rest).data = lead.data ++ '$' :: '$' :: rest.data := by
    simp [String.data_append]
  rw [e, h2, if_neg (by simp), splitGo_dollar_first _ _ h]
  exact ⟨_, rfl⟩

theorem stringsContains_FormatInt_dollar (n : Int) :
    stringsContains (FormatInt n ++ "$") "$$" = false := by
  unfold stringsContains
  have h1 : (FormatInt n ++ "$").data = (FormatInt n).data ++ ['$'] := by
    simp [String.data_append]
  have h2 : ("$$" : String).data = ['$', '$'] := rfl
  rw [h1, h2]
  exact containsGo_dollar_absent _ (FormatInt_no_dollar n)

/-! ## Claims -/

/-- C2. In `CreateNFSVolume`, when the network-space validation succeeds, the
filesystem is created with a non-zero id and the export cannot be created,
`DeleteFileSystem` is called exactly once, with the id of the created
filesystem, and the error returned by `CreateNFSVolume` and by `CreateVolume`
is the export error, whatever the `DeleteFileSystem` call returns. -/
theorem CreateNFSVolume_export_failure_deletes_filesystem {σ : Type} (api : Api σ)
    (nfs : nfsstorage) (st s1 : σ) (nw : String) (f : NfsRun σ (Option GoError)) (err : GoError)
    (hval : api.OneTimeValidation (nfs.configmap.get "pool_name")
      (nfs.configmap.get "nfs_networkspace") st = ((nw, none), s1))
    (hfs : nfsstorage.createFileSystem
      { nfs with configmap := nfs.configmap.set "nfs_networkspace" nw } api s1 = f)
    (hcreated : f.val = none)
    (hid : f.nfs.fileSystemID ≠ 0)
    (hexport : (f.nfs.createExportPath api f.st).val = some err) :
    (nfs.CreateNFSVolume api st).val = (none, some err) ∧
    (nfs.CreateNFSVolume api st).calls.filter Call.isDeleteFileSystem
      = [.DeleteFileSystem f.nfs.fileSystemID] ∧
    ∀ (nfs0 : nfsstorage) (req : csi.CreateVolumeRequest),
      (validateParameter req.Parameters).1 = true → nfs0.assignRequest req = nfs →
      (nfs0.CreateVolume api req st).val = (some ⟨none⟩, some err) ∧
      (nfs0.CreateVolume api req st).calls.filter Call.isDeleteFileSystem
        = [.DeleteFileSystem f.nfs.fileSystemID] := by
  obtain ⟨hv, hc⟩ := CreateNFSVolume_created api nfs st s1 nw f hval hfs hcreated
  obtain ⟨ev, eid, ec⟩ := exportAndAttach_export_failed api f.nfs f.st err hexport
  obtain ⟨e0, he0⟩ := createExportPath_calls f.nfs api f.st
  have hf : f.calls.filter Call.isDeleteFileSystem = [] := by
    rw [← hfs]; exact (createFileSystem_no_revert _ api s1).1
  have h1 : (nfs.CreateNFSVolume api st).val = (none, some err) := by
    rw [hv, revertFileSystem_val, ev]
  have h2 : (nfs.CreateNFSVolume api st).calls.filter Call.isDeleteFileSystem
      = [.DeleteFileSystem f.nfs.fileSystemID] := by
    rw [hc, revertFileSystem_calls, ev, eid, ec, he0]
    simp [List.filter_append, hf, hid, Call.isDeleteFileSystem, List.filter]
  refine ⟨h1, h2, ?_⟩
  intro nfs0 req hp hn
  subst hn
  obtain ⟨c1, c2⟩ := CreateVolume_of_error api nfs0 req st err hp (by rw [h1])
  exact ⟨c1, by rw [c2, h2]⟩

/-- C2, on the request `pvc-1` against a backend that assigns filesystem id 42,
refuses the export and also refuses the deletion. -/
theorem CreateNFSVolume_export_failure_deletes_filesystem_witness :
    (nfsstorage.zero.CreateVolume
        (scriptedApi ⟨42, 17, some (.errorsNew "export refused"), none, none,
          some (.errorsNew "delete refused")⟩) examplePvc 0).val
      = (some ⟨none⟩, some (.errorsNew "export refused")) ∧
    (nfsstorage.zero.CreateVolume
        (scriptedApi ⟨42, 17, some (.errorsNew "export refused"), none, none,
          some (.errorsNew "delete refused")⟩) examplePvc 0).calls.filter Call.isDeleteFileSystem
      = [.DeleteFileSystem 42] :=
  (CreateNFSVolume_export_failure_deletes_filesystem
    (scriptedApi ⟨42, 17, some (.errorsNew "export refused"), none, none,
      some (.errorsNew "delete refused")⟩)
    (nfsstorage.zero.assignRequest examplePvc) 0 1 "ns1" _ (.errorsNew "export refused")
    rfl rfl (by decide) (by decide) (by decide)).2.2 nfsstorage.zero examplePvc (by decide) rfl

/-- C3. Round trip of the quota identifier: for non-negative 64-bit integers
`fsID` and `quotaID` and a ceiling without `#`, `getVolumeIDs` applied to
`decimal(fsID) + "#" + decimal(quotaID) + "#" + ceiling` returns
`(fsID, quotaID, ceiling)` and no error; and this is the identifier that
`CreateVolume` builds from a record holding the two decimals under `ID` and
`TREEQID` and the configured ceiling. -/
theorem getVolumeIDs_roundtrip {σ : Type} (fsID quotaID : Int) (ceiling : String)
    (hfs : 0 ≤ fsID ∧ fsID < 2 ^ 63) (hq : 0 ≤ quotaID ∧ quotaID < 2 ^ 63)
    (hc : '#' ∉ ceiling.data) :
    getVolumeIDs (FormatInt fsID ++ "#" ++ FormatInt quotaID ++ "#" ++ ceiling)
      = (fsID, quotaID, ceiling, none) ∧
    ∀ (treeq : treeqstorage σ) (key : String) (req : csi.CreateVolumeRequest) (st : σ)
      (vol : csi.Volume),
      (treeq.CreateVolume key req st).val.1 = some ⟨some vol⟩ →
      vol.VolumeContext.get "ID" = FormatInt fsID →
      vol.VolumeContext.get "TREEQID" = FormatInt quotaID →
      req.Parameters.get key = ceiling →
      getVolumeIDs vol.VolumeId = (fsID, quotaID, ceiling, none) := by
  have main : getVolumeIDs (FormatInt fsID ++ "#" ++ FormatInt quotaID ++ "#" ++ ceiling)
      = (fsID, quotaID, ceiling, none) := by
    have hsplit : stringsSplit (FormatInt fsID ++ "#" ++ FormatInt quotaID ++ "#" ++ ceiling) "#"
        = [FormatInt fsID, FormatInt quotaID, ceiling] := by
      unfold stringsSplit
      have e : (FormatInt fsID ++ "#" ++ FormatInt quotaID ++ "#" ++ ceiling).data
          = (FormatInt fsID).data ++ '#' :: ((FormatInt quotaID).data ++ '#' :: ceiling.data) := by
        simp [String.data_append]
      have hs : ("#" : String).data = ['#'] := rfl
      rw [e, hs, if_neg (by simp), splitGo_hash_append _ _ (FormatInt_no_hash _ hfs.1),
        splitGo_hash_append _ _ (FormatInt_no_hash _ hq.1), splitGo_hash_none _ hc]
      simp
    unfold getVolumeIDs
    rw [hsplit]
    simp only [ParseInt_FormatInt _ hfs.1 hfs.2, ParseInt_FormatInt _ hq.1 hq.2]
  refine ⟨main, ?_⟩
  intro treeq key req st vol hv h1 h2 h3
  rw [treeq_CreateVolume_volumeId treeq key req st vol hv, h1, h2, h3]
  exact main

/-- C3, on filesystem 42, quota 7 and ceiling `2147483648`: the identifier is
`42#7#2147483648` and it decodes to the triple. -/
theorem getVolumeIDs_roundtrip_witness :
    FormatInt 42 ++ "#" ++ FormatInt 7 ++ "#" ++ "2147483648" = "42#7#2147483648" ∧
    getVolumeIDs (FormatInt 42 ++ "#" ++ FormatInt 7 ++ "#" ++ "2147483648")
      = (42, 7, "2147483648", none) :=
  ⟨by decide, (@getVolumeIDs_roundtrip Nat 42 7 "2147483648" (by decide) (by decide)
    (by decide)).1⟩

/-- C4. Decoding is strict about the number of fields: an identifier that does
not split on `#` into exactly three fields makes `getVolumeIDs` return an
error, and makes `DeleteVolume` and `ControllerExpandVolume` of the quota
strategy return an invalid-argument error without any call to the backend. -/
theorem getVolumeIDs_field_count {σ : Type} (treeq : treeqstorage σ) (volumeID : String)
    (range : Option csi.CapacityRange) (st : σ)
    (h : (stringsSplit volumeID "#").length ≠ 3) :
    (getVolumeIDs volumeID).2.2.2 ≠ none ∧
    (∃ msg, (treeq.DeleteVolume ⟨volumeID⟩ st).val
      = (none, some (.statusError .InvalidArgument msg))) ∧
    (treeq.DeleteVolume ⟨volumeID⟩ st).calls = [] ∧
    (∃ msg, (treeq.ControllerExpandVolume ⟨volumeID, range⟩ st).val
      = (none, some (.statusError .InvalidArgument msg))) ∧
    (treeq.ControllerExpandVolume ⟨volumeID, range⟩ st).calls = [] := by
  have hg : getVolumeIDs volumeID
      = (0, 0, "", some (.errorsNew "volume Id and other details not found")) := by
    unfold getVolumeIDs
    split
    · rename_i heq; rw [heq] at h; simp at h
    · rfl
  refine ⟨by rw [hg]; simp, ?_, ?_, ?_, ?_⟩
  · unfold treeqstorage.DeleteVolume
    split
    · exact ⟨_, rfl⟩
    · simp only [hg]; exact ⟨_, rfl⟩
  · unfold treeqstorage.DeleteVolume
    split
    · rfl
    · simp only [hg]
  · unfold treeqstorage.ControllerExpandVolume
    simp only [hg]; exact ⟨_, rfl⟩
  · unfold treeqstorage.ControllerExpandVolume
    simp only [hg]

/-- C4, on an identifier with two fields and on one with four. -/
theorem getVolumeIDs_field_count_witness :
    ((treeqstorage.DeleteVolume ⟨scriptedService ⟨[]⟩ none⟩ ⟨"42#7"⟩ 0).calls = [] ∧
      (treeqstorage.ControllerExpandVolume ⟨scriptedService ⟨[]⟩ none⟩
        ⟨"42#7", some ⟨3000000000, 0⟩⟩ 0).calls = []) ∧
    ((treeqstorage.DeleteVolume ⟨scriptedService ⟨[]⟩ none⟩ ⟨"42#7#100#1"⟩ 0).calls = [] ∧
      (treeqstorage.ControllerExpandVolume ⟨scriptedService ⟨[]⟩ none⟩
        ⟨"42#7#100#1", some ⟨3000000000, 0⟩⟩ 0).calls = []) :=
  ⟨⟨(getVolumeIDs_field_count ⟨scriptedService ⟨[]⟩ none⟩ "42#7" (some ⟨3000000000, 0⟩) 0
      (by decide)).2.2.1,
    (getVolumeIDs_field_count ⟨scriptedService ⟨[]⟩ none⟩ "42#7" (some ⟨3000000000, 0⟩) 0
      (by decide)).2.2.2.2⟩,
   ⟨(getVolumeIDs_field_count ⟨scriptedService ⟨[]⟩ none⟩ "42#7#100#1" (some ⟨3000000000, 0⟩) 0
      (by decide)).2.2.1,
    (getVolumeIDs_field_count ⟨scriptedService ⟨[]⟩ none⟩ "42#7#100#1" (some ⟨3000000000, 0⟩) 0
      (by decide)).2.2.2.2⟩⟩

/-- C5, the code at the identifier `abc#7#100`: it has three fields, the first
one is not an integer, and yet `getVolumeIDs` returns no error, because the
error of the first `ParseInt` is overwritten by the result of the second;
`DeleteVolume` then deletes quota 7 of filesystem 0 and
`ControllerExpandVolume` resizes it. -/
theorem getVolumeIDs_overwrites_first_error :
    stringsSplit "abc#7#100" "#" = ["abc", "7", "100"] ∧
    (ParseInt "abc").2 = some (.numError "ParseInt" "abc" .ErrSyntax) ∧
    getVolumeIDs "abc#7#100" = (0, 7, "100", none) ∧
    (treeqstorage.DeleteVolume ⟨scriptedService ⟨[]⟩ none⟩ ⟨"abc#7#100"⟩ 0).calls
      = [.DeleteTreeqVolume 0 7] ∧
    (treeqstorage.DeleteVolume ⟨scriptedService ⟨[]⟩ none⟩ ⟨"abc#7#100"⟩ 0).val
      = (some {}, none) ∧
    (treeqstorage.ControllerExpandVolume ⟨scriptedService ⟨[]⟩ none⟩
        ⟨"abc#7#100", some ⟨3000000000, 0⟩⟩ 0).calls
      = [.UpdateTreeqVolume 0 7 3000000000 "100"] := by
  decide

/-- C6, the code on the request `pvc-1` against a backend that creates
filesystem 42 and export 17 and then fails to resolve the address of the
network space: `CreateNFSVolume` returns the resolution error with both ids
recorded, and its seven calls end with `DeleteFileSystem 42`; there is no
`DeleteExportPath` call for export 17, which is left behind. -/
theorem CreateNFSVolume_ip_failure_leaves_export :
    ((nfsstorage.zero.assignRequest examplePvc).CreateNFSVolume
        (scriptedApi ⟨42, 17, none, some (.errorsNew "Ip address not found"), none, none⟩) 0).val
      = (none, some (.errorsNew "Ip address not found")) ∧
    ((nfsstorage.zero.assignRequest examplePvc).CreateNFSVolume
        (scriptedApi ⟨42, 17, none, some (.errorsNew "Ip address not found"), none, none⟩) 0
      ).nfs.fileSystemID = 42 ∧
    ((nfsstorage.zero.assignRequest examplePvc).CreateNFSVolume
        (scriptedApi ⟨42, 17, none, some (.errorsNew "Ip address not found"), none, none⟩) 0
      ).nfs.exportID = 17 ∧
    ((nfsstorage.zero.assignRequest examplePvc).CreateNFSVolume
        (scriptedApi ⟨42, 17, none, some (.errorsNew "Ip address not found"), none, none⟩) 0
      ).calls.map Call.isDeleteFileSystem = [false, false, false, false, false, false, true] ∧
    ¬ ((nfsstorage.zero.assignRequest examplePvc).CreateNFSVolume
        (scriptedApi ⟨42, 17, none, some (.errorsNew "Ip address not found"), none, none⟩) 0
      ).calls.filter Call.isDeleteExportPath = [.DeleteExportPath 17] := by
  decide

/-- The general form of the behaviour above. In `CreateNFSVolume`, when the
filesystem and the export are created and resolving the address of the
network space then fails, the resolution error is what `CreateNFSVolume` and
`CreateVolume` return, and no `DeleteExportPath` call is made: the deferred
function that deletes the export is registered only after the address has
been resolved. -/
theorem CreateNFSVolume_ip_failure_keeps_export {σ : Type} (api : Api σ)
    (nfs : nfsstorage) (st s1 s3 : σ) (nw ip : String) (f e : NfsRun σ (Option GoError))
    (err : GoError)
    (hval : api.OneTimeValidation (nfs.configmap.get "pool_name")
      (nfs.configmap.get "nfs_networkspace") st = ((nw, none), s1))
    (hfs : nfsstorage.createFileSystem
      { nfs with configmap := nfs.configmap.set "nfs_networkspace" nw } api s1 = f)
    (hcreated : f.val = none)
    (hexp : f.nfs.createExportPath api f.st = e)
    (hexported : e.val = none)
    (hip : api.getNetworkSpaceIP e.nfs.configmap e.st = ((ip, some err), s3)) :
    (nfs.CreateNFSVolume api st).val = (none, some err) ∧
    (nfs.CreateNFSVolume api st).calls.filter Call.isDeleteExportPath = [] ∧
    ∀ (nfs0 : nfsstorage) (req : csi.CreateVolumeRequest),
      (validateParameter req.Parameters).1 = true → nfs0.assignRequest req = nfs →
      (nfs0.CreateVolume api req st).val = (some ⟨none⟩, some err) ∧
      (nfs0.CreateVolume api req st).calls.filter Call.isDeleteExportPath = [] := by
  subst hexp
  obtain ⟨hv, hc⟩ := CreateNFSVolume_created api nfs st s1 nw f hval hfs hcreated
  obtain ⟨ev, eid, ec⟩ := exportAndAttach_ip_failed api f.nfs f.st s3 ip err hexported hip
  have hf : f.calls.filter Call.isDeleteExportPath = [] := by
    rw [← hfs]; exact (createFileSystem_no_revert _ api s1).2
  have he := (createExportPath_no_revert f.nfs api f.st).2
  have h1 : (nfs.CreateNFSVolume api st).val = (none, some err) := by
    rw [hv, revertFileSystem_val, ev]
  have h2 : (nfs.CreateNFSVolume api st).calls.filter Call.isDeleteExportPath = [] := by
    rw [hc, List.filter_append, List.filter_append, revertFileSystem_keeps_export_calls, ec,
      List.filter_append, hf, he]
    simp [List.filter, Call.isDeleteExportPath]
  refine ⟨h1, h2, ?_⟩
  intro nfs0 req hp hn
  subst hn
  obtain ⟨c1, c2⟩ := CreateVolume_of_error api nfs0 req st err hp (by rw [h1])
  exact ⟨c1, by rw [c2, h2]⟩

/-- The general form, on the request `pvc-1` against a backend that creates
filesystem 42 and export 17 and cannot resolve the address. -/
theorem CreateNFSVolume_ip_failure_keeps_export_witness :
    (nfsstorage.zero.CreateVolume
        (scriptedApi ⟨42, 17, none, some (.errorsNew "Ip address not found"), none, none⟩)
        examplePvc 0).val
      = (some ⟨none⟩, some (.errorsNew "Ip address not found")) ∧
    (nfsstorage.zero.CreateVolume
        (scriptedApi ⟨42, 17, none, some (.errorsNew "Ip address not found"), none, none⟩)
        examplePvc 0).calls.filter Call.isDeleteExportPath = [] :=
  (CreateNFSVolume_ip_failure_keeps_export
    (scriptedApi ⟨42, 17, none, some (.errorsNew "Ip address not found"), none, none⟩)
    (nfsstorage.zero.assignRequest examplePvc) 0 1 6 "ns1" "" _ _
    (.errorsNew "Ip address not found") rfl rfl (by decide) rfl (by decide) (by decide)).2.2
    nfsstorage.zero examplePvc (by decide) rfl

/-- C7, counterexample. Against a backend that creates filesystem 7 and
export 3 and then fails to resolve the address of the network space,
`CreateNFSVolume` does call `DeleteFileSystem`, once, for filesystem 7. -/
theorem CreateNFSVolume_ip_failure_filesystem_counterexample :
    ((nfsstorage.zero.assignRequest examplePvc).CreateNFSVolume
        (scriptedApi ⟨7, 3, none, some (.errorsNew "no portal"), none, none⟩) 0).val
      = (none, some (.errorsNew "no portal")) ∧
    ((nfsstorage.zero.assignRequest examplePvc).CreateNFSVolume
        (scriptedApi ⟨7, 3, none, some (.errorsNew "no portal"), none, none⟩) 0
      ).nfs.fileSystemID = 7 ∧
    ((nfsstorage.zero.assignRequest examplePvc).CreateNFSVolume
        (scriptedApi ⟨7, 3, none, some (.errorsNew "no portal"), none, none⟩) 0
      ).nfs.exportID = 3 ∧
    ((nfsstorage.zero.assignRequest examplePvc).CreateNFSVolume
        (scriptedApi ⟨7, 3, none, some (.errorsNew "no portal"), none, none⟩) 0
      ).calls.filter Call.isDeleteFileSystem = [.DeleteFileSystem 7] ∧
    ¬ ((nfsstorage.zero.assignRequest examplePvc).CreateNFSVolume
        (scriptedApi ⟨7, 3, none, some (.errorsNew "no portal"), none, none⟩) 0
      ).calls.filter Call.isDeleteFileSystem = [] := by
  decide

/-- C7, amended. In `CreateNFSVolume`, when resolving the address of the
network space fails after the filesystem and the export were created, the
filesystem deferred function runs: there is exactly one `DeleteFileSystem`
call, with the recorded filesystem id, when that id is not zero, and none
when it is zero. -/
theorem CreateNFSVolume_ip_failure_deletes_filesystem {σ : Type} (api : Api σ)
    (nfs : nfsstorage) (st s1 s3 : σ) (nw ip : String) (f e : NfsRun σ (Option GoError))
    (err : GoError)
    (hval : api.OneTimeValidation (nfs.configmap.get "pool_name")
      (nfs.configmap.get "nfs_networkspace") st = ((nw, none), s1))
    (hfs : nfsstorage.createFileSystem
      { nfs with configmap := nfs.configmap.set "nfs_networkspace" nw } api s1 = f)
    (hcreated : f.val = none)
    (hexp : f.nfs.createExportPath api f.st = e)
    (hexported : e.val = none)
    (hip : api.getNetworkSpaceIP e.nfs.configmap e.st = ((ip, some err), s3)) :
    (nfs.CreateNFSVolume api st).calls.filter Call.isDeleteFileSystem
      = if f.nfs.fileSystemID ≠ 0 then [.DeleteFileSystem f.nfs.fileSystemID] else [] := by
  subst hexp
  obtain ⟨_, hc⟩ := CreateNFSVolume_created api nfs st s1 nw f hval hfs hcreated
  obtain ⟨ev, eid, ec⟩ := exportAndAttach_ip_failed api f.nfs f.st s3 ip err hexported hip
  have hf : f.calls.filter Call.isDeleteFileSystem = [] := by
    rw [← hfs]; exact (createFileSystem_no_revert _ api s1).1
  have he := (createExportPath_no_revert f.nfs api f.st).1
  rw [hc, revertFileSystem_calls, ev, eid, ec]
  simp only [List.filter_append, hf, he, List.append_nil, List.nil_append]
  by_cases h0 : f.nfs.fileSystemID = 0
  · simp [h0, List.filter, Call.isDeleteFileSystem]
  · simp [h0, List.filter, Call.isDeleteFileSystem]

/-- C7 amended, against a backend that creates filesystem 7 and export 3 and
cannot resolve the address. -/
theorem CreateNFSVolume_ip_failure_deletes_filesystem_witness :
    ((nfsstorage.zero.assignRequest examplePvc).CreateNFSVolume
        (scriptedApi ⟨7, 3, none, some (.errorsNew "no portal"), none, none⟩) 0
      ).calls.filter Call.isDeleteFileSystem = [.DeleteFileSystem 7] :=
  CreateNFSVolume_ip_failure_deletes_filesystem
    (scriptedApi ⟨7, 3, none, some (.errorsNew "no portal"), none, none⟩)
    (nfsstorage.zero.assignRequest examplePvc) 0 1 6 "ns1" "" _ _
    (.errorsNew "no portal") rfl rfl (by decide) rfl (by decide) (by decide)

/-- C8. In `CreateNFSVolume`, when steps 1 to 4 succeed, the export having a
non-zero id, and attaching the metadata to the filesystem fails,
`DeleteExportPath` is called exactly once, with the id of the created export,
no volume is returned and the error returned by `CreateNFSVolume` and by
`CreateVolume` is the metadata error, whatever the `DeleteExportPath` call
returns. -/
theorem CreateNFSVolume_metadata_failure_deletes_export {σ : Type} (api : Api σ)
    (nfs : nfsstorage) (st s1 s3 : σ) (nw ip : String) (f e : NfsRun σ (Option GoError))
    (err : GoError)
    (hval : api.OneTimeValidation (nfs.configmap.get "pool_name")
      (nfs.configmap.get "nfs_networkspace") st = ((nw, none), s1))
    (hfs : nfsstorage.createFileSystem
      { nfs with configmap := nfs.configmap.set "nfs_networkspace" nw } api s1 = f)
    (hcreated : f.val = none)
    (hexp : f.nfs.createExportPath api f.st = e)
    (hexported : e.val = none)
    (hid : e.nfs.exportID ≠ 0)
    (hip : api.getNetworkSpaceIP e.nfs.configmap e.st = ((ip, none), s3))
    (hattach : (api.AttachMetadataToObject e.nfs.fileSystemID
      ((GoMap.empty.set "host.k8s.pvname" e.nfs.pVName).set "filesystem_type" "") s3).1
        = some err) :
    (nfs.CreateNFSVolume api st).val = (none, some err) ∧
    (nfs.CreateNFSVolume api st).calls.filter Call.isDeleteExportPath
      = [.DeleteExportPath e.nfs.exportID] ∧
    ∀ (nfs0 : nfsstorage) (req : csi.CreateVolumeRequest),
      (validateParameter req.Parameters).1 = true → nfs0.assignRequest req = nfs →
      (nfs0.CreateVolume api req st).val = (some ⟨none⟩, some err) ∧
      (nfs0.CreateVolume api req st).calls.filter Call.isDeleteExportPath
        = [.DeleteExportPath e.nfs.exportID] := by
  subst hexp
  obtain ⟨hv, hc⟩ := CreateNFSVolume_created api nfs st s1 nw f hval hfs hcreated
  obtain ⟨ev, eid, ec⟩ := exportAndAttach_ip_resolved api f.nfs f.st s3 ip hexported hip
  have ha := attachMetadata_failed
    { (f.nfs.createExportPath api f.st).nfs with ipAddress := ip } api s3 err hattach
  obtain ⟨i, m, hac⟩ := attachMetadata_calls
    { (f.nfs.createExportPath api f.st).nfs with ipAddress := ip } api s3
  have hf : f.calls.filter Call.isDeleteExportPath = [] := by
    rw [← hfs]; exact (createFileSystem_no_revert _ api s1).2
  have he := (createExportPath_no_revert f.nfs api f.st).2
  have h1 : (nfs.CreateNFSVolume api st).val = (none, some err) := by
    rw [hv, revertFileSystem_val, ev, ha]
  have h2 : (nfs.CreateNFSVolume api st).calls.filter Call.isDeleteExportPath
      = [.DeleteExportPath (f.nfs.createExportPath api f.st).nfs.exportID] := by
    rw [hc, List.filter_append, List.filter_append, revertFileSystem_keeps_export_calls, ec,
      List.filter_append, List.filter_append, revertExportPath_calls, ha, attachMetadata_nfs, hac,
      hf, he]
    have hcond : (some err ≠ none ∧
        ({ (f.nfs.createExportPath api f.st).nfs with ipAddress := ip } : nfsstorage).exportID ≠ 0) :=
      ⟨by simp, hid⟩
    rw [if_pos hcond]
    simp [List.filter, Call.isDeleteExportPath]
  refine ⟨h1, h2, ?_⟩
  intro nfs0 req hp hn
  subst hn
  obtain ⟨c1, c2⟩ := CreateVolume_of_error api nfs0 req st err hp (by rw [h1])
  exact ⟨c1, by rw [c2, h2]⟩

/-- C8, on the request `pvc-1` against a backend that creates filesystem 42
and export 17, refuses the metadata and also refuses the deletions. -/
theorem CreateNFSVolume_metadata_failure_deletes_export_witness :
    (nfsstorage.zero.CreateVolume
        (scriptedApi ⟨42, 17, none, none, some (.errorsNew "metadata refused"),
          some (.errorsNew "delete refused")⟩) examplePvc 0).val
      = (some ⟨none⟩, some (.errorsNew "metadata refused")) ∧
    (nfsstorage.zero.CreateVolume
        (scriptedApi ⟨42, 17, none, none, some (.errorsNew "metadata refused"),
          some (.errorsNew "delete refused")⟩) examplePvc 0).calls.filter Call.isDeleteExportPath
      = [.DeleteExportPath 17] :=
  (CreateNFSVolume_metadata_failure_deletes_export
    (scriptedApi ⟨42, 17, none, none, some (.errorsNew "metadata refused"),
      some (.errorsNew "delete refused")⟩)
    (nfsstorage.zero.assignRequest examplePvc) 0 1 6 "ns1" "10.0.0.5" _ _
    (.errorsNew "metadata refused") rfl rfl (by decide) rfl (by decide) (by decide) (by decide)
    (by decide)).2.2 nfsstorage.zero examplePvc (by decide) rfl

/-- C9. The quota strategy's `CreateVolume` is idempotent on the name. With
`v` the result of the parameter validation and `e` the result of the lookup
`IsTreeqAlreadyExist(pool, network space, name)`: `CreateTreeqVolume` is
called exactly once when the validation passes and the lookup returns an
empty record without error, and is not called otherwise; and when the
validation passes and the lookup returns a non-empty record without error,
`CreateTreeqVolume` is not called and the volume returned has the identifier
`ID + "#" + TREEQID + "#" + ceiling` of that record and the configured
ceiling. -/
theorem treeq_CreateVolume_reuses_existing {σ : Type} (treeq : treeqstorage σ) (key : String)
    (req : csi.CreateVolumeRequest) (st : σ) (v : (Bool × GoMap) × σ)
    (e : (GoMap × Option GoError) × σ)
    (hv : treeq.filesysService.validateTreeqParameters req.Parameters st = v)
    (he : treeq.filesysService.IsTreeqAlreadyExist (req.Parameters.get "pool_name")
      (req.Parameters.get "network_space") req.Name v.2 = e) :
    (treeq.CreateVolume key req st).calls.filter Call.isCreateTreeqVolume
      = (if v.1.1 = true ∧ e.1.1.len = 0 ∧ e.1.2 = none then
          [.CreateTreeqVolume req.Parameters
            (max (csi.GetRequiredBytes req.CapacityRange) 1073741824) req.Name]
        else []) ∧
    (v.1.1 = true → e.1.1.len ≠ 0 → e.1.2 = none →
      (treeq.CreateVolume key req st).calls.filter Call.isCreateTreeqVolume = [] ∧
      (treeq.CreateVolume key req st).val = (some ⟨some {
        VolumeId := e.1.1.get "ID" ++ "#" ++ e.1.1.get "TREEQID" ++ "#" ++ req.Parameters.get key
        CapacityBytes := max (csi.GetRequiredBytes req.CapacityRange) 1073741824
        VolumeContext := e.1.1
        ContentSource := req.VolumeContentSource }⟩, none)) := by
  subst hv
  subst he
  have hfloor : (if csi.GetRequiredBytes req.CapacityRange < gib then gib
      else csi.GetRequiredBytes req.CapacityRange)
      = max (csi.GetRequiredBytes req.CapacityRange) 1073741824 := by
    rw [floor_eq, floorCapacity_eq_max]
  constructor
  · unfold treeqstorage.CreateVolume
    simp only [stringsTrim_empty_cutset, hfloor]
    by_cases h1 : (treeq.filesysService.validateTreeqParameters req.Parameters st).1.1 = true
    · simp only [h1, not_true_eq_false, if_false, true_and]
      split
      · split <;> simp [List.filter, Call.isCreateTreeqVolume]
      · split <;> simp [List.filter, Call.isCreateTreeqVolume]
    · simp [h1, List.filter, Call.isCreateTreeqVolume]
  · intro h1 h2 h3
    unfold treeqstorage.CreateVolume
    simp only [stringsTrim_empty_cutset, hfloor, h1, not_true_eq_false, if_false, h2, h3,
      false_and]
    simp [List.filter, Call.isCreateTreeqVolume]

/-- C9, on a service that already holds quota 7 of filesystem 42 under the
requested name, and on a service that holds none. -/
theorem treeq_CreateVolume_reuses_existing_witness :
    ((treeqstorage.CreateVolume ⟨scriptedService ⟨[("ID", "42"), ("TREEQID", "7")]⟩ none⟩
        "max_filesystem_size"
        ⟨"pvc-1", some ⟨524288000, 0⟩, ⟨[("pool_name", "p1"), ("network_space", "ns1"),
          ("max_filesystem_size", "2147483648")]⟩, none⟩ 0).calls.filter
        Call.isCreateTreeqVolume = [] ∧
      (treeqstorage.CreateVolume ⟨scriptedService ⟨[("ID", "42"), ("TREEQID", "7")]⟩ none⟩
        "max_filesystem_size"
        ⟨"pvc-1", some ⟨524288000, 0⟩, ⟨[("pool_name", "p1"), ("network_space", "ns1"),
          ("max_filesystem_size", "2147483648")]⟩, none⟩ 0).val
        = (some ⟨some ⟨"42#7#2147483648", 1073741824, ⟨[("ID", "42"), ("TREEQID", "7")]⟩,
            none⟩⟩, none)) ∧
    (treeqstorage.CreateVolume ⟨scriptedService ⟨[]⟩ none⟩ "max_filesystem_size"
        ⟨"pvc-1", some ⟨524288000, 0⟩, ⟨[("pool_name", "p1"), ("network_space", "ns1"),
          ("max_filesystem_size", "2147483648")]⟩, none⟩ 0).calls.filter
        Call.isCreateTreeqVolume
      = [.CreateTreeqVolume ⟨[("pool_name", "p1"), ("network_space", "ns1"),
          ("max_filesystem_size", "2147483648")]⟩ 1073741824 "pvc-1"] :=
  ⟨(treeq_CreateVolume_reuses_existing
      ⟨scriptedService ⟨[("ID", "42"), ("TREEQID", "7")]⟩ none⟩ "max_filesystem_size"
      ⟨"pvc-1", some ⟨524288000, 0⟩, ⟨[("pool_name", "p1"), ("network_space", "ns1"),
        ("max_filesystem_size", "2147483648")]⟩, none⟩ 0 _ _ rfl rfl).2
      (by decide) (by decide) (by decide),
   (treeq_CreateVolume_reuses_existing
      ⟨scriptedService ⟨[]⟩ none⟩ "max_filesystem_size"
      ⟨"pvc-1", some ⟨524288000, 0⟩, ⟨[("pool_name", "p1"), ("network_space", "ns1"),
        ("max_filesystem_size", "2147483648")]⟩, none⟩ 0 _ _ rfl rfl).1⟩

/-- C10. For an identifier that `getVolumeIDs` decodes to
`(fsID, quotaID, ceiling)` and a requested capacity `c`, the quota strategy's
`ControllerExpandVolume` calls `UpdateTreeqVolume` exactly once, with
`(fsID, quotaID, max(c, 1073741824), ceiling)`, and makes no other call; if
that call succeeds the response has `CapacityBytes = max(c, 1073741824)`, and
if it fails its error is returned. -/
theorem treeq_ControllerExpandVolume_resizes {σ : Type} (treeq : treeqstorage σ)
    (volumeID : String) (c limit : Int) (st : σ) (fsID quotaID : Int) (ceiling : String)
    (hdecode : getVolumeIDs volumeID = (fsID, quotaID, ceiling, none)) :
    (treeq.ControllerExpandVolume ⟨volumeID, some ⟨c, limit⟩⟩ st).calls
      = [.UpdateTreeqVolume fsID quotaID (max c 1073741824) ceiling] ∧
    ((treeq.filesysService.UpdateTreeqVolume fsID quotaID (max c 1073741824) ceiling st).1 = none →
      (treeq.ControllerExpandVolume ⟨volumeID, some ⟨c, limit⟩⟩ st).val
        = (some ⟨max c 1073741824, false⟩, none)) ∧
    (∀ err,
      (treeq.filesysService.UpdateTreeqVolume fsID quotaID (max c 1073741824) ceiling st).1
        = some err →
      (treeq.ControllerExpandVolume ⟨volumeID, some ⟨c, limit⟩⟩ st).val = (none, some err)) := by
  have hfloor : (if c < gib then gib else c) = max c 1073741824 := by
    rw [floor_eq, floorCapacity_eq_max]
  unfold treeqstorage.ControllerExpandVolume
  simp only [hdecode, csi.GetRequiredBytes, hfloor]
  refine ⟨?_, ?_, ?_⟩
  · split <;> rfl
  · intro h; simp only [h]
  · intro err h; simp only [h]

/-- C10, the scenario of the specification: the identifier `42#7#2147483648`
with a requested capacity of 3000000000 bytes gives the call
`(42, 7, 3000000000, "2147483648")` and `CapacityBytes` 3000000000. -/
theorem treeq_ControllerExpandVolume_resizes_witness :
    (treeqstorage.ControllerExpandVolume ⟨scriptedService ⟨[]⟩ none⟩
        ⟨"42#7#2147483648", some ⟨3000000000, 0⟩⟩ 0).calls
      = [.UpdateTreeqVolume 42 7 3000000000 "2147483648"] ∧
    (treeqstorage.ControllerExpandVolume ⟨scriptedService ⟨[]⟩ none⟩
        ⟨"42#7#2147483648", some ⟨3000000000, 0⟩⟩ 0).val
      = (some ⟨3000000000, false⟩, none) :=
  ⟨(treeq_ControllerExpandVolume_resizes ⟨scriptedService ⟨[]⟩ none⟩ "42#7#2147483648"
      3000000000 0 0 42 7 "2147483648" (by decide)).1,
   (treeq_ControllerExpandVolume_resizes ⟨scriptedService ⟨[]⟩ none⟩ "42#7#2147483648"
      3000000000 0 0 42 7 "2147483648" (by decide)).2.1 rfl⟩

/-- C11. For every non-empty volume identifier that does not parse as a
base-10 64-bit integer, `DeleteVolume` of the exclusive strategy returns an
empty response and no error, makes no gateway call and leaves the backend
state as it is; for the empty identifier it returns an invalid-argument
error, again without a gateway call. -/
theorem nfs_DeleteVolume_unparsable {σ : Type} (nfs : nfsstorage) (api : Api σ)
    (volumeID : String) (st : σ) (hne : volumeID ≠ "") (hbad : (ParseInt volumeID).2 ≠ none) :
    ((nfs.DeleteVolume api ⟨volumeID⟩ st).val = (some {}, none) ∧
      (nfs.DeleteVolume api ⟨volumeID⟩ st).calls = [] ∧
      (nfs.DeleteVolume api ⟨volumeID⟩ st).st = st) ∧
    ((nfs.DeleteVolume api ⟨""⟩ st).val
        = (none, some (.statusError .InvalidArgument "Volume ID missing in request")) ∧
      (nfs.DeleteVolume api ⟨""⟩ st).calls = []) := by
  refine ⟨?_, by unfold nfsstorage.DeleteVolume; exact ⟨rfl, rfl⟩⟩
  unfold nfsstorage.DeleteVolume
  have h0 : ¬ (volumeID.data.length = 0) := fun h => hne ((string_data_length_zero _).mp h)
  simp only [h0, if_false]
  split
  · exact ⟨rfl, rfl, rfl⟩
  · rename_i heq
    rw [heq] at hbad
    exact absurd rfl hbad

/-- C11, on the identifiers `pvc-1`, `12x` and a numeral beyond 64 bits. -/
theorem nfs_DeleteVolume_unparsable_witness :
    ((nfsstorage.zero.DeleteVolume (scriptedDeleteApi ⟨[⟨3, "/a"⟩], none, 0, none, none, none⟩)
        ⟨"pvc-1"⟩ 0).val = (some {}, none) ∧
      (nfsstorage.zero.DeleteVolume (scriptedDeleteApi ⟨[⟨3, "/a"⟩], none, 0, none, none, none⟩)
        ⟨"pvc-1"⟩ 0).calls = []) ∧
    (nfsstorage.zero.DeleteVolume (scriptedDeleteApi ⟨[⟨3, "/a"⟩], none, 0, none, none, none⟩)
        ⟨"12x"⟩ 0).calls = [] ∧
    (nfsstorage.zero.DeleteVolume (scriptedDeleteApi ⟨[⟨3, "/a"⟩], none, 0, none, none, none⟩)
        ⟨"9223372036854775808"⟩ 0).calls = [] :=
  ⟨⟨(nfs_DeleteVolume_unparsable nfsstorage.zero
        (scriptedDeleteApi ⟨[⟨3, "/a"⟩], none, 0, none, none, none⟩) "pvc-1" 0
        (by decide) (by decide)).1.1,
    (nfs_DeleteVolume_unparsable nfsstorage.zero
        (scriptedDeleteApi ⟨[⟨3, "/a"⟩], none, 0, none, none, none⟩) "pvc-1" 0
        (by decide) (by decide)).1.2.1⟩,
   (nfs_DeleteVolume_unparsable nfsstorage.zero
      (scriptedDeleteApi ⟨[⟨3, "/a"⟩], none, 0, none, none, none⟩) "12x" 0
      (by decide) (by decide)).1.2.1,
   (nfs_DeleteVolume_unparsable nfsstorage.zero
      (scriptedDeleteApi ⟨[⟨3, "/a"⟩], none, 0, none, none, none⟩) "9223372036854775808" 0
      (by decide) (by decide)).1.2.1⟩

/-- C12. When `DeleteVolume` of the exclusive strategy is given an identifier
that decodes to the integer `n` and the backend reports the filesystem as
not found, `DeleteVolume` returns success: if the export lookup fails, the
lookup is the only gateway call and the response is empty with a nil error;
and the same response is given whenever `DeleteNFSVolume` returns an error
from the lookup or from any later gateway call. -/
theorem nfs_DeleteVolume_not_found {σ : Type} (nfs : nfsstorage) (api : Api σ)
    (volumeID : String) (st : σ) (n : Int) (hdecode : ParseInt volumeID = (n, none)) :
    (∀ notFound, (api.GetExportByFileSystem n st).1.2 = some notFound →
      (nfs.DeleteVolume api ⟨volumeID⟩ st).val = (some {}, none) ∧
      (nfs.DeleteVolume api ⟨volumeID⟩ st).calls = [.GetExportByFileSystem n]) ∧
    (∀ notFound, (nfsstorage.DeleteNFSVolume { nfs with uniqueID := n } api st).val
        = some notFound →
      (nfs.DeleteVolume api ⟨volumeID⟩ st).val = (some {}, none)) := by
  have hne : volumeID ≠ "" := by
    intro h
    rw [h] at hdecode
    exact ParseInt_empty (by rw [hdecode])
  have hv := nfs_DeleteVolume_val nfs api volumeID st hne
  refine ⟨?_, fun _ _ => hv⟩
  intro notFound hnf
  refine ⟨hv, ?_⟩
  rw [nfs_DeleteVolume_calls nfs api volumeID st n hdecode]
  unfold nfsstorage.DeleteNFSVolume
  simp only [hnf]

/-- C12, on the identifier `42` against a backend whose export lookup answers
`FILESYSTEM_NOT_FOUND`. -/
theorem nfs_DeleteVolume_not_found_witness :
    (nfsstorage.zero.DeleteVolume
        (scriptedDeleteApi ⟨[], some (.errorsNew "FILESYSTEM_NOT_FOUND"), 0, none, none, none⟩)
        ⟨"42"⟩ 0).val = (some {}, none) ∧
    (nfsstorage.zero.DeleteVolume
        (scriptedDeleteApi ⟨[], some (.errorsNew "FILESYSTEM_NOT_FOUND"), 0, none, none, none⟩)
        ⟨"42"⟩ 0).calls = [.GetExportByFileSystem 42] :=
  (nfs_DeleteVolume_not_found nfsstorage.zero
    (scriptedDeleteApi ⟨[], some (.errorsNew "FILESYSTEM_NOT_FOUND"), 0, none, none, none⟩)
    "42" 0 42 (by decide)).1 (.errorsNew "FILESYSTEM_NOT_FOUND") (by decide)

/-- C13. For every identifier that `getVolumeIDs` decodes to
`(fsID, quotaID, ceiling)`, `DeleteVolume` of the quota strategy calls
`DeleteTreeqVolume` exactly once, with `(fsID, quotaID)`, and makes no other
call; it returns an empty response and no error when that call succeeds or
fails with an error whose message contains `FILESYSTEM_NOT_FOUND`, and
returns the error of the call unchanged for every other failure. -/
theorem treeq_DeleteVolume_deletes_quota {σ : Type} (treeq : treeqstorage σ)
    (volumeID : String) (st : σ) (fsID quotaID : Int) (ceiling : String)
    (hdecode : getVolumeIDs volumeID = (fsID, quotaID, ceiling, none)) :
    (treeq.DeleteVolume ⟨volumeID⟩ st).calls = [.DeleteTreeqVolume fsID quotaID] ∧
    ((treeq.filesysService.DeleteTreeqVolume fsID quotaID st).1 = none →
      (treeq.DeleteVolume ⟨volumeID⟩ st).val = (some {}, none)) ∧
    (∀ err, (treeq.filesysService.DeleteTreeqVolume fsID quotaID st).1 = some err →
      stringsContains err.Error "FILESYSTEM_NOT_FOUND" = true →
      (treeq.DeleteVolume ⟨volumeID⟩ st).val = (some {}, none)) ∧
    (∀ err, (treeq.filesysService.DeleteTreeqVolume fsID quotaID st).1 = some err →
      stringsContains err.Error "FILESYSTEM_NOT_FOUND" = false →
      (treeq.DeleteVolume ⟨volumeID⟩ st).val = (some {}, some err)) := by
  have hne : volumeID ≠ "" := by
    intro h
    rw [h] at hdecode
    exact getVolumeIDs_empty (by rw [hdecode])
  have h0 : ¬ (volumeID.data.length = 0) := fun h => hne ((string_data_length_zero _).mp h)
  unfold treeqstorage.DeleteVolume
  simp only [h0, if_false, hdecode]
  refine ⟨?_, ?_, ?_, ?_⟩
  · split
    · split <;> rfl
    · rfl
  · intro h; simp only [h]
  · intro err h hc; simp only [h, hc, if_true]
  · intro err h hc; simp [h, hc]

/-- C13, on the identifier `42#7#100`: against a service that deletes the
quota, against one that answers `FILESYSTEM_NOT_FOUND`, and against one that
answers with another error. -/
theorem treeq_DeleteVolume_deletes_quota_witness :
    ((treeqstorage.DeleteVolume ⟨scriptedQuotaDelete none⟩ ⟨"42#7#100"⟩ 0).calls
        = [.DeleteTreeqVolume 42 7] ∧
      (treeqstorage.DeleteVolume ⟨scriptedQuotaDelete none⟩ ⟨"42#7#100"⟩ 0).val
        = (some {}, none)) ∧
    (treeqstorage.DeleteVolume
        ⟨scriptedQuotaDelete (some (.errorsNew "APPROVAL_REQUIRED FILESYSTEM_NOT_FOUND"))⟩
        ⟨"42#7#100"⟩ 0).val = (some {}, none) ∧
    (treeqstorage.DeleteVolume ⟨scriptedQuotaDelete (some (.errorsNew "quota is busy"))⟩
        ⟨"42#7#100"⟩ 0).val = (some {}, some (.errorsNew "quota is busy")) :=
  ⟨⟨(treeq_DeleteVolume_deletes_quota ⟨scriptedQuotaDelete none⟩ "42#7#100" 0 42 7 "100"
        (by decide)).1,
    (treeq_DeleteVolume_deletes_quota ⟨scriptedQuotaDelete none⟩ "42#7#100" 0 42 7 "100"
        (by decide)).2.1 (by decide)⟩,
   (treeq_DeleteVolume_deletes_quota
      ⟨scriptedQuotaDelete (some (.errorsNew "APPROVAL_REQUIRED FILESYSTEM_NOT_FOUND"))⟩
      "42#7#100" 0 42 7 "100" (by decide)).2.2.1
      (.errorsNew "APPROVAL_REQUIRED FILESYSTEM_NOT_FOUND") (by decide) (by decide),
   (treeq_DeleteVolume_deletes_quota ⟨scriptedQuotaDelete (some (.errorsNew "quota is busy"))⟩
      "42#7#100" 0 42 7 "100" (by decide)).2.2.2 (.errorsNew "quota is busy") (by decide)
      (by decide)⟩

/-- C14. Round trip of the exclusive identifier: for every non-negative
64-bit integer `n`, the identifier that `CreateNFSVolume` produces for
filesystem `n`, the decimal rendering of `n`, is parsed back to exactly `n`
without error, both by `DeleteVolume` (which parses the whole identifier and
runs `DeleteNFSVolume` on filesystem `n`) and by `ControllerExpandVolume`
(which parses the part before the first `$$` and resizes filesystem `n`). -/
theorem exclusive_identifier_roundtrip {σ : Type} (n : Int) (h0 : 0 ≤ n) (h1 : n < 2 ^ 63) :
    ParseInt (FormatInt n) = (n, none) ∧
    stringsSplit (FormatInt n) "$$" = [FormatInt n] ∧
    (∀ (nfs : nfsstorage) (api : Api σ) (st : σ) (vol : infinidatVolume),
      (nfs.CreateNFSVolume api st).val.1 = some vol → vol.FileSystemID = n →
      vol.VolID = FormatInt n) ∧
    (∀ (nfs : nfsstorage) (api : Api σ) (st : σ),
      (nfs.DeleteVolume api ⟨FormatInt n⟩ st).calls
        = (nfsstorage.DeleteNFSVolume { nfs with uniqueID := n } api st).calls) ∧
    (∀ (nfs : nfsstorage) (api : Api σ) (st : σ) (c limit : Int),
      (nfs.ControllerExpandVolume api ⟨FormatInt n, some ⟨c, limit⟩⟩ st).calls
        = [.UpdateFilesystem n ⟨0, 0, "", false, "", max c 1073741824⟩]) := by
  have hp := ParseInt_FormatInt n h0 h1
  refine ⟨hp, stringsSplit_FormatInt n, ?_, ?_, ?_⟩
  · intro nfs api st vol hv hid
    rw [CreateNFSVolume_volID nfs api st vol hv, hid]
  · intro nfs api st
    exact nfs_DeleteVolume_calls nfs api _ st n hp
  · intro nfs api st c limit
    exact (nfs_ControllerExpandVolume_decoded nfs api (FormatInt n) (FormatInt n) [] c limit st n
      (FormatInt_ne_empty n) (stringsSplit_FormatInt n) hp).1

/-- C14, on filesystem 42: the identifier is `42`, it parses to 42, the
delete path looks up the exports of filesystem 42 and the expand path
resizes filesystem 42. -/
theorem exclusive_identifier_roundtrip_witness :
    FormatInt 42 = "42" ∧
    ParseInt (FormatInt 42) = (42, none) ∧
    (nfsstorage.zero.DeleteVolume
        (scriptedDeleteApi ⟨[], none, 0, none, none, none⟩) ⟨FormatInt 42⟩ 0).calls
      = (nfsstorage.DeleteNFSVolume { nfsstorage.zero with uniqueID := 42 }
        (scriptedDeleteApi ⟨[], none, 0, none, none, none⟩) 0).calls ∧
    (nfsstorage.zero.ControllerExpandVolume
        (scriptedDeleteApi ⟨[], none, 0, none, none, none⟩)
        ⟨FormatInt 42, some ⟨3000000000, 0⟩⟩ 0).calls
      = [.UpdateFilesystem 42 ⟨0, 0, "", false, "", max 3000000000 1073741824⟩] :=
  ⟨by decide,
   (@exclusive_identifier_roundtrip Nat 42 (by decide) (by decide)).1,
   (@exclusive_identifier_roundtrip Nat 42 (by decide) (by decide)).2.2.2.1 nfsstorage.zero
      (scriptedDeleteApi ⟨[], none, 0, none, none, none⟩) 0,
   (@exclusive_identifier_roundtrip Nat 42 (by decide) (by decide)).2.2.2.2 nfsstorage.zero
      (scriptedDeleteApi ⟨[], none, 0, none, none, none⟩) 0 3000000000 0⟩

/-- C15, counterexample. A request without `pool_name` and a request without
`nfs_networkspace` have different status maps, but `CreateVolume` returns the
same error for both, with a fixed message that names neither key: the error
does not enumerate the missing keys. -/
theorem CreateVolume_validation_error_counterexample :
    (validateParameter ⟨[("nfs_networkspace", "ns1")]⟩).2
      = ⟨[("pool_name", "pool_name valume missing")]⟩ ∧
    (validateParameter ⟨[("pool_name", "p1")]⟩).2
      = ⟨[("nfs_networkspace", "nfs_networkspace valume missing")]⟩ ∧
    (nfsstorage.zero.CreateVolume (countingApi 12)
        ⟨"pvc-1", some ⟨524288000, 0⟩, ⟨[("nfs_networkspace", "ns1")]⟩, none⟩ 0).val
      = (none, some (.statusError .InvalidArgument
          "Fail to validate the storage class parameter")) ∧
    (nfsstorage.zero.CreateVolume (countingApi 12)
        ⟨"pvc-1", some ⟨524288000, 0⟩, ⟨[("pool_name", "p1")]⟩, none⟩ 0).val
      = (none, some (.statusError .InvalidArgument
          "Fail to validate the storage class parameter")) ∧
    stringsContains (GoError.statusError .InvalidArgument
        "Fail to validate the storage class parameter").Error "pool_name" = false ∧
    stringsContains (GoError.statusError .InvalidArgument
        "Fail to validate the storage class parameter").Error "nfs_networkspace" = false := by
  decide

/-- C15, amended. For every configuration mapping, `validateParameter`
succeeds exactly when `pool_name` and `nfs_networkspace` both have a
non-empty value (a key is present with a non-empty value exactly when
reading it does not give the empty string), and its status map has an entry
for exactly the required keys that are missing, in their order; when the
validation fails, `CreateVolume` returns at once an invalid-argument error
with the fixed message `Fail to validate the storage class parameter`, makes
no gateway call and leaves the receiver and the backend state as they are. -/
theorem validateParameter_required_keys {σ : Type} (config : GoMap) :
    (∀ k, config.get k ≠ "" ↔ ∃ v, config.entries.lookup k = some v ∧ v ≠ "") ∧
    ((validateParameter config).1 = true ↔
      config.get "pool_name" ≠ "" ∧ config.get "nfs_networkspace" ≠ "") ∧
    (validateParameter config).2.entries
      = (["pool_name", "nfs_networkspace"].filter (fun k => config.get k = "")).map
          (fun k => (k, k ++ " valume missing")) ∧
    (∀ (nfs : nfsstorage) (api : Api σ) (req : csi.CreateVolumeRequest) (st : σ),
      req.Parameters = config → (validateParameter config).1 = false →
      (nfs.CreateVolume api req st).val
        = (none, some (.statusError .InvalidArgument
            "Fail to validate the storage class parameter")) ∧
      (nfs.CreateVolume api req st).calls = [] ∧
      (nfs.CreateVolume api req st).nfs = nfs ∧
      (nfs.CreateVolume api req st).st = st) := by
  refine ⟨?_, ?_, ?_, ?_⟩
  · intro k
    unfold GoMap.get
    cases config.entries.lookup k <;> simp
  · by_cases h1 : config.get "pool_name" = "" <;> by_cases h2 : config.get "nfs_networkspace" = ""
      <;> simp [validateParameter, List.foldl, h1, h2]
  · by_cases h1 : config.get "pool_name" = "" <;> by_cases h2 : config.get "nfs_networkspace" = ""
      <;> simp [validateParameter, List.foldl, h1, h2, GoMap.set, GoMap.empty, List.filter]
  · intro nfs api req st hreq hfail
    subst hreq
    unfold nfsstorage.CreateVolume
    simp [hfail]

/-- C16. When the parameter validation and all five steps of the creation
succeed, `CreateVolume` of the exclusive strategy makes no delete call, asks
the backend for a filesystem whose `Size` is the normalised capacity, and
returns a volume whose `VolumeId` is the decimal rendering of the filesystem
id that the backend assigned and whose `CapacityBytes` is the normalised
capacity; the returned context map holds the export path, the IP address,
the size, the export id and the filesystem id (under the keys `volPathd`,
`ipAddress`, `volSize`, `exportID` and `fileSystemID`; `volID` and
`exportBlock` are added too). -/
theorem CreateVolume_all_steps_succeed {σ : Type} (api : Api σ) (nfs0 : nfsstorage)
    (req : csi.CreateVolumeRequest) (st s1 s3 : σ) (nw ip : String)
    (f e : NfsRun σ (Option GoError))
    (hparam : (validateParameter req.Parameters).1 = true)
    (hval : api.OneTimeValidation ((nfs0.assignRequest req).configmap.get "pool_name")
      ((nfs0.assignRequest req).configmap.get "nfs_networkspace") st = ((nw, none), s1))
    (hfs : nfsstorage.createFileSystem
      { nfs0.assignRequest req with
        configmap := ((nfs0.assignRequest req).configmap.set "nfs_networkspace" nw) } api s1 = f)
    (hcreated : f.val = none)
    (hexp : f.nfs.createExportPath api f.st = e)
    (hexported : e.val = none)
    (hip : api.getNetworkSpaceIP e.nfs.configmap e.st = ((ip, none), s3))
    (hattach : (api.AttachMetadataToObject e.nfs.fileSystemID
      ((GoMap.empty.set "host.k8s.pvname" e.nfs.pVName).set "filesystem_type" "") s3).1 = none) :
    (nfs0.CreateVolume api req st).calls.filter Call.isDelete = [] ∧
    (∃ fileSys, Call.CreateFilesystem fileSys ∈ (nfs0.CreateVolume api req st).calls ∧
      fileSys.Size = floorCapacity (csi.GetRequiredBytes req.CapacityRange)) ∧
    ∃ vol, (nfs0.CreateVolume api req st).val = (some ⟨some vol⟩, none) ∧
      vol.VolumeId = FormatInt f.nfs.fileSystemID ∧
      vol.CapacityBytes = floorCapacity (csi.GetRequiredBytes req.CapacityRange) ∧
      vol.VolumeContext.get "volPathd"
        = pathJoin [dataRoot, getPVName req.Name (req.Parameters.get "vol_prefix")] ∧
      vol.VolumeContext.get "ipAddress" = ip ∧
      vol.VolumeContext.get "volSize"
        = FormatInt (floorCapacity (csi.GetRequiredBytes req.CapacityRange)) ∧
      vol.VolumeContext.get "exportID" = FormatInt e.nfs.exportID ∧
      vol.VolumeContext.get "fileSystemID" = FormatInt f.nfs.fileSystemID ∧
      vol.VolumeContext.get "volID" = FormatInt f.nfs.fileSystemID ∧
      vol.VolumeContext.get "exportBlock" = e.nfs.exportBlock := by
  subst hexp
  obtain ⟨hv, hc⟩ := CreateNFSVolume_created api (nfs0.assignRequest req) st s1 nw f hval hfs
    hcreated
  obtain ⟨ev, _, ec⟩ := exportAndAttach_ip_resolved api f.nfs f.st s3 ip hexported hip
  have ha := attachMetadata_succeeded
    { (f.nfs.createExportPath api f.st).nfs with ipAddress := ip } api s3 hattach
  obtain ⟨i, m, hac⟩ := attachMetadata_calls
    { (f.nfs.createExportPath api f.st).nfs with ipAddress := ip } api s3
  obtain ⟨e0, he0⟩ := createExportPath_calls f.nfs api f.st
  obtain ⟨ep, ecap, epath, _⟩ := createExportPath_fields f.nfs api f.st
  have efs := createExportPath_fileSystemID f.nfs api f.st
  have hff := createFileSystem_fields
    { nfs0.assignRequest req with
      configmap := ((nfs0.assignRequest req).configmap.set "nfs_networkspace" nw) } api s1
  rw [hfs] at hff
  obtain ⟨_, fcap, fpath, _⟩ := hff
  have hreq := createFileSystem_requested
    { nfs0.assignRequest req with
      configmap := ((nfs0.assignRequest req).configmap.set "nfs_networkspace" nw) } api s1
    (by rw [hfs]; exact hcreated)
  rw [hfs] at hreq
  obtain ⟨fileSys, hmem, hsize⟩ := hreq
  -- the result of `CreateNFSVolume`
  have hvol : ((nfs0.assignRequest req).CreateNFSVolume api st).val = (some {
      VolName := (f.nfs.createExportPath api f.st).nfs.pVName
      VolID := FormatInt (f.nfs.createExportPath api f.st).nfs.fileSystemID
      VolSize := (f.nfs.createExportPath api f.st).nfs.capacity
      VolPath := (f.nfs.createExportPath api f.st).nfs.exportpath
      IpAddress := ip
      ExportID := (f.nfs.createExportPath api f.st).nfs.exportID
      FileSystemID := (f.nfs.createExportPath api f.st).nfs.fileSystemID
      ExportBlock := (f.nfs.createExportPath api f.st).nfs.exportBlock }, none) := by
    rw [hv, revertFileSystem_val, ev, ha]
  have hcalls : ((nfs0.assignRequest req).CreateNFSVolume api st).calls
      = [.OneTimeValidation ((nfs0.assignRequest req).configmap.get "pool_name")
          ((nfs0.assignRequest req).configmap.get "nfs_networkspace")] ++ f.calls
        ++ ([Call.ExportFileSystem e0]
          ++ [.getNetworkSpaceIP (f.nfs.createExportPath api f.st).nfs.configmap]
          ++ [.AttachMetadataToObject i m]) := by
    rw [hc, revertFileSystem_calls, ev, ec, revertExportPath_calls, ha, hac, he0]
    simp
  have hfd : f.calls.filter Call.isDelete = [] := by
    rw [List.filter_eq_nil_iff]
    intro c hcm
    rw [← hfs] at hcm
    rcases createFileSystem_calls _ api s1 c hcm with rfl | ⟨n, rfl⟩ | ⟨fs, rfl, _⟩ <;>
      simp [Call.isDelete, Call.isDeleteFileSystem, Call.isDeleteExportPath]
  obtain ⟨cc, vol, hvv, hid, hcapb, _, hipa, hpath, hvid, hsz, hex, hfid, hblk⟩ :=
    CreateVolume_of_volume api nfs0 req st _ hparam hvol
  have hcapeq : (nfs0.assignRequest req).capacity
      = floorCapacity (csi.GetRequiredBytes req.CapacityRange) := assignRequest_capacity nfs0 req
  refine ⟨?_, ⟨fileSys, ?_, ?_⟩, vol, hvv, ?_, hcapb, ?_, hipa, ?_, hex, ?_, ?_, hblk⟩
  · rw [cc, hcalls]
    simp only [List.filter_append, hfd]
    simp [List.filter, Call.isDelete, Call.isDeleteFileSystem, Call.isDeleteExportPath]
  · rw [cc, hcalls]
    simp only [List.mem_append]
    exact Or.inl (Or.inr hmem)
  · rw [hsize]
    exact hcapeq
  · rw [hid]
    simp only [efs]
  · rw [hpath]
    simp only [epath, fpath]
    rfl
  · rw [hsz]
    simp only [ecap, fcap]
    rw [← hcapeq]
  · rw [hfid]
    simp only [efs]
  · rw [hvid]
    simp only [efs]

/-- C16, the scenario of the specification: name `pvc-1`, 500 MiB, pool `p1`,
network space `ns1`, against a backend that assigns filesystem id 42 and
export id 17. The filesystem is requested with `Size` 1073741824 and the
response has `VolumeId` `42` and `CapacityBytes` 1073741824. -/
theorem CreateVolume_all_steps_succeed_witness :
    (nfsstorage.zero.CreateVolume (scriptedApi ⟨42, 17, none, none, none, none⟩) examplePvc
        0).calls.filter Call.isDelete = [] ∧
    (∃ fileSys, Call.CreateFilesystem fileSys
        ∈ (nfsstorage.zero.CreateVolume (scriptedApi ⟨42, 17, none, none, none, none⟩) examplePvc
          0).calls ∧ fileSys.Size = 1073741824) ∧
    (nfsstorage.zero.CreateVolume (scriptedApi ⟨42, 17, none, none, none, none⟩) examplePvc 0).val
      = (some ⟨some {
          VolumeId := "42"
          CapacityBytes := 1073741824
          VolumeContext := ⟨[("pool_name", "p1"), ("nfs_networkspace", "ns1"),
            ("ipAddress", "10.0.0.5"), ("volPathd", "/fs/pvc-1"), ("volID", "42"),
            ("volSize", "1073741824"), ("exportID", "17"), ("fileSystemID", "42"),
            ("exportBlock", "/fs/pvc-1")]⟩
          ContentSource := none }⟩, none) :=
  ⟨(CreateVolume_all_steps_succeed (scriptedApi ⟨42, 17, none, none, none, none⟩)
      nfsstorage.zero examplePvc 0 1 6 "ns1" "10.0.0.5" _ _ (by decide) rfl rfl (by decide) rfl
      (by decide) (by decide) (by decide)).1,
   (CreateVolume_all_steps_succeed (scriptedApi ⟨42, 17, none, none, none, none⟩)
      nfsstorage.zero examplePvc 0 1 6 "ns1" "10.0.0.5" _ _ (by decide) rfl rfl (by decide) rfl
      (by decide) (by decide) (by decide)).2.1,
   by decide⟩

/-- C17. With the backend reporting `cnt` filesystems: when `cnt` is at or
above the ceiling of 4000, `createFileSystem` returns an error after the
count alone, without the pool lookup and without `CreateFilesystem`, and
`CreateNFSVolume` returns that error after the validation and the count, with
no filesystem id recorded and no export, metadata or delete call; when `cnt`
is below 4000, `createFileSystem` goes on to the pool lookup, and returns no
error once the lookup and the creation succeed. -/
theorem createFileSystem_ceiling {σ : Type} (nfs : nfsstorage) (api : Api σ) (st s1 : σ)
    (cnt : Int) (hcount : api.GetFileSystemCount st = ((cnt, none), s1)) :
    (4000 ≤ cnt →
      (nfs.createFileSystem api st).val
        = some (.errorsNew "Ibox not allowed to create new file system") ∧
      (nfs.createFileSystem api st).calls = [.GetFileSystemCount] ∧
      (nfs.createFileSystem api st).nfs = nfs ∧
      ∀ (nfs0 : nfsstorage) (s0 : σ) (nw : String),
        api.OneTimeValidation (nfs0.configmap.get "pool_name")
          (nfs0.configmap.get "nfs_networkspace") s0 = ((nw, none), st) →
        { nfs0 with configmap := nfs0.configmap.set "nfs_networkspace" nw } = nfs →
        (nfs0.CreateNFSVolume api s0).val
          = (none, some (.errorsNew "Ibox not allowed to create new file system")) ∧
        (nfs0.CreateNFSVolume api s0).calls
          = [.OneTimeValidation (nfs0.configmap.get "pool_name")
              (nfs0.configmap.get "nfs_networkspace"), .GetFileSystemCount] ∧
        (nfs0.CreateNFSVolume api s0).nfs.fileSystemID = nfs0.fileSystemID) ∧
    (cnt < 4000 →
      (∃ rest, (nfs.createFileSystem api st).calls
        = .GetFileSystemCount :: .GetStoragePoolIDByName (nfs.configmap.get "pool_name") :: rest) ∧
      ∀ (poolID : Int) (s2 s3 : σ) (fileSystem : FileSystem),
        api.GetStoragePoolIDByName (nfs.configmap.get "pool_name") s1 = ((poolID, none), s2) →
        api.CreateFilesystem {
            ID := 0
            PoolID := poolID
            Name := nfs.pVName
            SsdEnabled := ParseBool (if nfs.configmap.get "ssd_enabled" = "" then sprintBool false
              else nfs.configmap.get "ssd_enabled")
            Provtype := stringsToUpper (nfs.configmap.get "provision_type")
            Size := nfs.capacity } s2 = ((fileSystem, none), s3) →
        (nfs.createFileSystem api st).val = none ∧
        (nfs.createFileSystem api st).nfs.fileSystemID = fileSystem.ID) := by
  constructor
  · intro hge
    have hge2 : cnt ≥ MaxFileSystemAllowed := hge
    have hv : (nfs.createFileSystem api st).val
        = some (.errorsNew "Ibox not allowed to create new file system") := by
      unfold nfsstorage.createFileSystem
      simp only [hcount, hge2, if_true]
    have hc : (nfs.createFileSystem api st).calls = [.GetFileSystemCount] := by
      unfold nfsstorage.createFileSystem
      simp only [hcount, hge2, if_true]
    have hn : (nfs.createFileSystem api st).nfs = nfs := by
      unfold nfsstorage.createFileSystem
      simp only [hcount, hge2, if_true]
    refine ⟨hv, hc, hn, ?_⟩
    intro nfs0 s0 nw hval hnfs
    subst hnfs
    unfold nfsstorage.CreateNFSVolume
    simp only [hval, hv, hc, hn]
    exact ⟨trivial, rfl, trivial⟩
  · intro hlt
    have hlt2 : ¬ (cnt ≥ MaxFileSystemAllowed) := by
      unfold MaxFileSystemAllowed; omega
    constructor
    · unfold nfsstorage.createFileSystem
      simp only [hcount, hlt2, if_false]
      split
      · exact ⟨_, rfl⟩
      · split <;> exact ⟨_, rfl⟩
    · intro poolID s2 s3 fileSystem hpool hcreate
      unfold nfsstorage.createFileSystem
      simp only [hcount, hlt2, if_false, hpool, hcreate]
      exact ⟨trivial, trivial⟩

/-- C17, on the request `pvc-1`: with exactly 4000 filesystems the creation
stops after the count, with 3999 the filesystem is created. -/
theorem createFileSystem_ceiling_witness :
    ((nfsstorage.zero.assignRequest examplePvc).CreateNFSVolume (countingApi 4000) 0).val
      = (none, some (.errorsNew "Ibox not allowed to create new file system")) ∧
    ((nfsstorage.zero.assignRequest examplePvc).CreateNFSVolume (countingApi 4000) 0).calls
      = [.OneTimeValidation "p1" "ns1", .GetFileSystemCount] ∧
    (nfsstorage.createFileSystem { nfsstorage.zero.assignRequest examplePvc with
        configmap := ((nfsstorage.zero.assignRequest examplePvc).configmap.set
          "nfs_networkspace" "ns1") } (countingApi 3999) 1).val = none :=
  ⟨((createFileSystem_ceiling
      { nfsstorage.zero.assignRequest examplePvc with
        configmap := ((nfsstorage.zero.assignRequest examplePvc).configmap.set
          "nfs_networkspace" "ns1") } (countingApi 4000) 1 2 4000 rfl).1 (by decide)).2.2.2
      (nfsstorage.zero.assignRequest examplePvc) 0 "ns1" rfl rfl |>.1,
   ((createFileSystem_ceiling
      { nfsstorage.zero.assignRequest examplePvc with
        configmap := ((nfsstorage.zero.assignRequest examplePvc).configmap.set
          "nfs_networkspace" "ns1") } (countingApi 4000) 1 2 4000 rfl).1 (by decide)).2.2.2
      (nfsstorage.zero.assignRequest examplePvc) 0 "ns1" rfl rfl |>.2.1,
   ((createFileSystem_ceiling
      { nfsstorage.zero.assignRequest examplePvc with
        configmap := ((nfsstorage.zero.assignRequest examplePvc).configmap.set
          "nfs_networkspace" "ns1") } (countingApi 3999) 1 2 3999 rfl).2 (by decide)).2
      3 3 4 _ rfl rfl |>.1⟩

/-- C18. For the identifier that is the decimal rendering of a 64-bit integer
`n` and a request whose capacity range asks for `c` bytes,
`ControllerExpandVolume` of the exclusive strategy makes exactly one gateway
call, `UpdateFilesystem(n, Size = max(c, 1073741824))`; it returns
`CapacityBytes = max(c, 1073741824)` when that call succeeds and the error of
the call when it fails. A request without capacity range, or with an empty
identifier, returns an invalid-argument error without a gateway call. -/
theorem nfs_ControllerExpandVolume_resizes {σ : Type} (nfs : nfsstorage) (api : Api σ)
    (n c limit : Int) (st : σ) (h0 : -(2 ^ 63) ≤ n) (h1 : n < 2 ^ 63) :
    (nfs.ControllerExpandVolume api ⟨FormatInt n, some ⟨c, limit⟩⟩ st).calls
      = [.UpdateFilesystem n ⟨0, 0, "", false, "", max c 1073741824⟩] ∧
    ((api.UpdateFilesystem n ⟨0, 0, "", false, "", max c 1073741824⟩ st).1 = none →
      (nfs.ControllerExpandVolume api ⟨FormatInt n, some ⟨c, limit⟩⟩ st).val
        = (some ⟨max c 1073741824, false⟩, none)) ∧
    (∀ err, (api.UpdateFilesystem n ⟨0, 0, "", false, "", max c 1073741824⟩ st).1 = some err →
      (nfs.ControllerExpandVolume api ⟨FormatInt n, some ⟨c, limit⟩⟩ st).val
        = (some ⟨0, false⟩, some err)) ∧
    (∀ volumeID : String,
      (∃ msg, (nfs.ControllerExpandVolume api ⟨volumeID, none⟩ st).val
        = (none, some (.statusError .InvalidArgument msg))) ∧
      (nfs.ControllerExpandVolume api ⟨volumeID, none⟩ st).calls = []) ∧
    (∀ range : Option csi.CapacityRange,
      (nfs.ControllerExpandVolume api ⟨"", range⟩ st).val
        = (none, some (.statusError .InvalidArgument "Volume ID missing in request")) ∧
      (nfs.ControllerExpandVolume api ⟨"", range⟩ st).calls = []) := by
  obtain ⟨a, b, c3⟩ := nfs_ControllerExpandVolume_decoded nfs api (FormatInt n) (FormatInt n) []
    c limit st n (FormatInt_ne_empty n) (stringsSplit_FormatInt n)
    (ParseInt_FormatInt_int64 n h0 h1)
  refine ⟨a, b, c3, ?_, ?_⟩
  · intro volumeID
    unfold nfsstorage.ControllerExpandVolume
    split
    · exact ⟨⟨_, rfl⟩, rfl⟩
    · simp only [if_true]
      exact ⟨⟨_, rfl⟩, trivial⟩
  · intro range
    unfold nfsstorage.ControllerExpandVolume
    simp only [if_true]
    exact ⟨trivial, trivial⟩

/-- C18, on the identifier `42` with a request for 3000000000 bytes and on
the identifier `-7` with a request for 500 MiB. -/
theorem nfs_ControllerExpandVolume_resizes_witness :
    ((nfsstorage.zero.ControllerExpandVolume (scriptedDeleteApi ⟨[], none, 0, none, none, none⟩)
        ⟨FormatInt 42, some ⟨3000000000, 0⟩⟩ 0).calls
        = [.UpdateFilesystem 42 ⟨0, 0, "", false, "", max 3000000000 1073741824⟩] ∧
      (nfsstorage.zero.ControllerExpandVolume (scriptedDeleteApi ⟨[], none, 0, none, none, none⟩)
        ⟨FormatInt 42, some ⟨3000000000, 0⟩⟩ 0).val
        = (some ⟨max 3000000000 1073741824, false⟩, none)) ∧
    (nfsstorage.zero.ControllerExpandVolume
        (scriptedDeleteApi ⟨[], none, 0, none, none, some (.errorsNew "no space")⟩)
        ⟨FormatInt (-7), some ⟨524288000, 0⟩⟩ 0).val
      = (some ⟨0, false⟩, some (.errorsNew "no space")) :=
  ⟨⟨(nfs_ControllerExpandVolume_resizes nfsstorage.zero
        (scriptedDeleteApi ⟨[], none, 0, none, none, none⟩) 42 3000000000 0 0
        (by decide) (by decide)).1,
    (nfs_ControllerExpandVolume_resizes nfsstorage.zero
        (scriptedDeleteApi ⟨[], none, 0, none, none, none⟩) 42 3000000000 0 0
        (by decide) (by decide)).2.1 rfl⟩,
   (nfs_ControllerExpandVolume_resizes nfsstorage.zero
      (scriptedDeleteApi ⟨[], none, 0, none, none, some (.errorsNew "no space")⟩) (-7) 524288000 0 0
      (by decide) (by decide)).2.2.1 (.errorsNew "no space") rfl⟩

/-- C19. The gateway calls of `DeleteNFSVolume`, with the export lookup
returning the list `l` and the error `lookupErr`. If the lookup fails, it is
the only call and its error is returned. Otherwise the listed exports are
deleted in list order and either every deletion succeeds or there is a first
one that fails: in that case its error is returned and the calls end with
it, with no call for the later exports, no metadata detach and no filesystem
deletion. If every deletion succeeds and the metadata detach fails, its error
is returned and the filesystem is not deleted. If the detach succeeds too, the
calls are the lookup, one deletion per listed export, the detach and one
filesystem deletion, and the result is that of the filesystem deletion. -/
theorem DeleteNFSVolume_sequence {σ : Type} (nfs : nfsstorage) (api : Api σ) (st s1 : σ)
    (l : List ExportResponse) (lookupErr : Option GoError)
    (hlookup : api.GetExportByFileSystem nfs.uniqueID st = ((l, lookupErr), s1)) :
    (∀ err, lookupErr = some err →
      (nfs.DeleteNFSVolume api st).val = some err ∧
      (nfs.DeleteNFSVolume api st).calls = [.GetExportByFileSystem nfs.uniqueID]) ∧
    (lookupErr = none →
      ((deleteExports api l s1).val = none ∨
        ∃ pre ep post err, l = pre ++ ep :: post ∧ (deleteExports api pre s1).val = none ∧
          (api.DeleteExportPath ep.ID (deleteExports api pre s1).st).1 = some err) ∧
      (∀ pre ep post err, l = pre ++ ep :: post → (deleteExports api pre s1).val = none →
        (api.DeleteExportPath ep.ID (deleteExports api pre s1).st).1 = some err →
        (nfs.DeleteNFSVolume api st).val = some err ∧
        (nfs.DeleteNFSVolume api st).calls
          = .GetExportByFileSystem nfs.uniqueID
            :: (pre ++ [ep]).map (fun e => Call.DeleteExportPath e.ID)) ∧
      ((deleteExports api l s1).val = none →
        (∀ err, (api.DetachMetadataFromObject nfs.uniqueID (deleteExports api l s1).st).1
            = some err →
          (nfs.DeleteNFSVolume api st).val = some err ∧
          (nfs.DeleteNFSVolume api st).calls
            = .GetExportByFileSystem nfs.uniqueID
              :: (l.map (fun e => Call.DeleteExportPath e.ID)
                ++ [.DetachMetadataFromObject nfs.uniqueID])) ∧
        ((api.DetachMetadataFromObject nfs.uniqueID (deleteExports api l s1).st).1 = none →
          (nfs.DeleteNFSVolume api st).val
            = (api.DeleteFileSystem nfs.uniqueID
                (api.DetachMetadataFromObject nfs.uniqueID (deleteExports api l s1).st).2).1 ∧
          (nfs.DeleteNFSVolume api st).calls
            = .GetExportByFileSystem nfs.uniqueID
              :: (l.map (fun e => Call.DeleteExportPath e.ID)
                ++ [.DetachMetadataFromObject nfs.uniqueID,
                    .DeleteFileSystem nfs.uniqueID])))) := by
  constructor
  · intro err he
    subst he
    unfold nfsstorage.DeleteNFSVolume
    simp only [hlookup]
    exact ⟨trivial, trivial⟩
  · intro hn
    subst hn
    refine ⟨deleteExports_cases api l s1, ?_, ?_⟩
    · intro pre ep post err hl hpre hep
      subst hl
      obtain ⟨hv, hc⟩ := deleteExports_stops api pre post ep s1 err hpre hep
      unfold nfsstorage.DeleteNFSVolume
      simp only [hlookup, hv, hc]
      exact ⟨trivial, rfl⟩
    · intro hall
      have hc := deleteExports_all api l s1 hall
      constructor
      · intro err hd
        unfold nfsstorage.DeleteNFSVolume
        simp only [hlookup, hall, hc, hd]
        exact ⟨trivial, by simp⟩
      · intro hd
        unfold nfsstorage.DeleteNFSVolume
        simp only [hlookup, hall, hc, hd]
        exact ⟨trivial, by simp⟩

/-- C19, on filesystem 42 with the exports 3, 4 and 5 listed: when the
deletion of export 4 fails, the calls stop there and the error is returned;
when every call succeeds, each export and the filesystem are deleted once. -/
theorem DeleteNFSVolume_sequence_witness :
    ((nfsstorage.DeleteNFSVolume { nfsstorage.zero with uniqueID := 42 }
        (scriptedDeleteApi ⟨[⟨3, "/a"⟩, ⟨4, "/b"⟩, ⟨5, "/c"⟩], none, 4,
          some (.errorsNew "export is busy"), none, none⟩) 0).val
        = some (.errorsNew "export is busy") ∧
      (nfsstorage.DeleteNFSVolume { nfsstorage.zero with uniqueID := 42 }
        (scriptedDeleteApi ⟨[⟨3, "/a"⟩, ⟨4, "/b"⟩, ⟨5, "/c"⟩], none, 4,
          some (.errorsNew "export is busy"), none, none⟩) 0).calls
        = [.GetExportByFileSystem 42, .DeleteExportPath 3, .DeleteExportPath 4]) ∧
    ((nfsstorage.DeleteNFSVolume { nfsstorage.zero with uniqueID := 42 }
        (scriptedDeleteApi ⟨[⟨3, "/a"⟩, ⟨4, "/b"⟩, ⟨5, "/c"⟩], none, 0, none, none, none⟩) 0).val
        = none ∧
      (nfsstorage.DeleteNFSVolume { nfsstorage.zero with uniqueID := 42 }
        (scriptedDeleteApi ⟨[⟨3, "/a"⟩, ⟨4, "/b"⟩, ⟨5, "/c"⟩], none, 0, none, none, none⟩)
        0).calls
        = [.GetExportByFileSystem 42, .DeleteExportPath 3, .DeleteExportPath 4,
            .DeleteExportPath 5, .DetachMetadataFromObject 42, .DeleteFileSystem 42]) :=
  ⟨((DeleteNFSVolume_sequence { nfsstorage.zero with uniqueID := 42 }
      (scriptedDeleteApi ⟨[⟨3, "/a"⟩, ⟨4, "/b"⟩, ⟨5, "/c"⟩], none, 4,
        some (.errorsNew "export is busy"), none, none⟩) 0 1
      [⟨3, "/a"⟩, ⟨4, "/b"⟩, ⟨5, "/c"⟩] none rfl).2 rfl).2.1
      [⟨3, "/a"⟩] ⟨4, "/b"⟩ [⟨5, "/c"⟩] (.errorsNew "export is busy") rfl (by decide)
      (by decide),
   (((DeleteNFSVolume_sequence { nfsstorage.zero with uniqueID := 42 }
      (scriptedDeleteApi ⟨[⟨3, "/a"⟩, ⟨4, "/b"⟩, ⟨5, "/c"⟩], none, 0, none, none, none⟩) 0 1
      [⟨3, "/a"⟩, ⟨4, "/b"⟩, ⟨5, "/c"⟩] none rfl).2 rfl).2.2 (by decide)).2 (by decide)⟩

/-- C20. For every non-empty volume identifier and every behaviour of the
backend gateway, `DeleteVolume` of the exclusive strategy returns an empty
response with a nil error. In particular, when the identifier parses to `n`
and `DeleteNFSVolume` returns an error (from the export lookup, an export
deletion, the metadata detach or the filesystem deletion), `DeleteVolume` has
made the calls of `DeleteNFSVolume` and still returns the empty response with
a nil error: the failure is not surfaced. -/
theorem nfs_DeleteVolume_hides_failures {σ : Type} (nfs : nfsstorage) (api : Api σ)
    (volumeID : String) (st : σ) (hne : volumeID ≠ "") :
    (nfs.DeleteVolume api ⟨volumeID⟩ st).val = (some {}, none) ∧
    ∀ (n : Int) (err : GoError), ParseInt volumeID = (n, none) →
      (nfsstorage.DeleteNFSVolume { nfs with uniqueID := n } api st).val = some err →
      (nfs.DeleteVolume api ⟨volumeID⟩ st).calls
        = (nfsstorage.DeleteNFSVolume { nfs with uniqueID := n } api st).calls ∧
      (nfs.DeleteVolume api ⟨volumeID⟩ st).val.2 ≠ some err := by
  have hv := nfs_DeleteVolume_val nfs api volumeID st hne
  refine ⟨hv, ?_⟩
  intro n err hdecode _
  refine ⟨nfs_DeleteVolume_calls nfs api volumeID st n hdecode, ?_⟩
  rw [hv]
  simp

/-- C20, on the identifier `42` against a backend that lists export 3 and
fails to delete the filesystem: `DeleteNFSVolume` returns the error, and
`DeleteVolume` returns the empty response with a nil error after the same
four calls. -/
theorem nfs_DeleteVolume_hides_failures_witness :
    (nfsstorage.DeleteNFSVolume { nfsstorage.zero with uniqueID := 42 }
        (scriptedDeleteApi ⟨[⟨3, "/a"⟩], none, 0, none, none,
          some (.errorsNew "filesystem has snapshots")⟩) 0).val
      = some (.errorsNew "filesystem has snapshots") ∧
    (nfsstorage.zero.DeleteVolume
        (scriptedDeleteApi ⟨[⟨3, "/a"⟩], none, 0, none, none,
          some (.errorsNew "filesystem has snapshots")⟩) ⟨"42"⟩ 0).val = (some {}, none) ∧
    (nfsstorage.zero.DeleteVolume
        (scriptedDeleteApi ⟨[⟨3, "/a"⟩], none, 0, none, none,
          some (.errorsNew "filesystem has snapshots")⟩) ⟨"42"⟩ 0).calls
      = [.GetExportByFileSystem 42, .DeleteExportPath 3, .DetachMetadataFromObject 42,
          .DeleteFileSystem 42] :=
  ⟨by decide,
   (nfs_DeleteVolume_hides_failures nfsstorage.zero
      (scriptedDeleteApi ⟨[⟨3, "/a"⟩], none, 0, none, none,
        some (.errorsNew "filesystem has snapshots")⟩) "42" 0 (by decide)).1,
   ((nfs_DeleteVolume_hides_failures nfsstorage.zero
      (scriptedDeleteApi ⟨[⟨3, "/a"⟩], none, 0, none, none,
        some (.errorsNew "filesystem has snapshots")⟩) "42" 0 (by decide)).2 42
      (.errorsNew "filesystem has snapshots") (by decide) (by decide)).1⟩

/-- C21. The filesystem compensation of `CreateNFSVolume` is guarded by the
recorded filesystem id. After a successful validation and a successful
`createFileSystem`, which records the id of the filesystem that
`CreateFilesystem` returned: a failure of the export creation, of the address
resolution or of the metadata step makes `CreateNFSVolume` return that
error; and whenever `CreateNFSVolume` returns an error, it has made no
`DeleteFileSystem` call if the recorded id is 0, so that the created
filesystem is left in place, and exactly one `DeleteFileSystem` call, with
the recorded id, if that id is not 0. -/
theorem CreateNFSVolume_filesystem_guard {σ : Type} (api : Api σ) (nfs : nfsstorage)
    (st s1 : σ) (nw : String) (f : NfsRun σ (Option GoError))
    (hval : api.OneTimeValidation (nfs.configmap.get "pool_name")
      (nfs.configmap.get "nfs_networkspace") st = ((nw, none), s1))
    (hfs : nfsstorage.createFileSystem
      { nfs with configmap := nfs.configmap.set "nfs_networkspace" nw } api s1 = f)
    (hcreated : f.val = none) :
    (∃ fileSys s, Call.CreateFilesystem fileSys ∈ f.calls ∧
      (api.CreateFilesystem fileSys s).1.2 = none ∧
      f.nfs.fileSystemID = (api.CreateFilesystem fileSys s).1.1.ID) ∧
    (∀ err, (f.nfs.createExportPath api f.st).val = some err →
      (nfs.CreateNFSVolume api st).val = (none, some err)) ∧
    (∀ (ip : String) (err : GoError) (s3 : σ), (f.nfs.createExportPath api f.st).val = none →
      api.getNetworkSpaceIP (f.nfs.createExportPath api f.st).nfs.configmap
        (f.nfs.createExportPath api f.st).st = ((ip, some err), s3) →
      (nfs.CreateNFSVolume api st).val = (none, some err)) ∧
    (∀ (ip : String) (err : GoError) (s3 : σ), (f.nfs.createExportPath api f.st).val = none →
      api.getNetworkSpaceIP (f.nfs.createExportPath api f.st).nfs.configmap
        (f.nfs.createExportPath api f.st).st = ((ip, none), s3) →
      (api.AttachMetadataToObject (f.nfs.createExportPath api f.st).nfs.fileSystemID
        ((GoMap.empty.set "host.k8s.pvname" (f.nfs.createExportPath api f.st).nfs.pVName).set
          "filesystem_type" "") s3).1 = some err →
      (nfs.CreateNFSVolume api st).val = (none, some err)) ∧
    (∀ err, (nfs.CreateNFSVolume api st).val.2 = some err →
      (f.nfs.fileSystemID = 0 →
        (nfs.CreateNFSVolume api st).calls.filter Call.isDeleteFileSystem = []) ∧
      (f.nfs.fileSystemID ≠ 0 →
        (nfs.CreateNFSVolume api st).calls.filter Call.isDeleteFileSystem
          = [.DeleteFileSystem f.nfs.fileSystemID])) := by
  obtain ⟨hv, _⟩ := CreateNFSVolume_created api nfs st s1 nw f hval hfs hcreated
  have hd := CreateNFSVolume_filesystem_deletes api nfs st s1 nw f hval hfs hcreated
  have hrec := createFileSystem_recorded
    { nfs with configmap := nfs.configmap.set "nfs_networkspace" nw } api s1
    (by rw [hfs]; exact hcreated)
  rw [hfs] at hrec
  refine ⟨hrec, ?_, ?_, ?_, ?_⟩
  · intro err hexp
    rw [hv, revertFileSystem_val, (exportAndAttach_export_failed api f.nfs f.st err hexp).1]
  · intro ip err s3 hexp hip
    rw [hv, revertFileSystem_val, (exportAndAttach_ip_failed api f.nfs f.st s3 ip err hexp hip).1]
  · intro ip err s3 hexp hip hat
    rw [hv, revertFileSystem_val, (exportAndAttach_ip_resolved api f.nfs f.st s3 ip hexp hip).1]
    exact attachMetadata_failed _ api s3 err hat
  · intro err herr
    rw [hd, herr]
    constructor
    · intro h0
      simp [h0]
    · intro h0
      simp [h0]

/-- C21, on the request `pvc-1` against backends that refuse the export: one
returning filesystem id 0, where no `DeleteFileSystem` call is made, and one
returning filesystem id 42, where `DeleteFileSystem 42` is called once. -/
theorem CreateNFSVolume_filesystem_guard_witness :
    ((nfsstorage.zero.assignRequest examplePvc).CreateNFSVolume
        (scriptedApi ⟨0, 17, some (.errorsNew "export refused"), none, none, none⟩) 0).val
      = (none, some (.errorsNew "export refused")) ∧
    ((nfsstorage.zero.assignRequest examplePvc).CreateNFSVolume
        (scriptedApi ⟨0, 17, some (.errorsNew "export refused"), none, none, none⟩) 0
      ).calls.filter Call.isDeleteFileSystem = [] ∧
    ((nfsstorage.zero.assignRequest examplePvc).CreateNFSVolume
        (scriptedApi ⟨42, 17, some (.errorsNew "export refused"), none, none, none⟩) 0
      ).calls.filter Call.isDeleteFileSystem = [.DeleteFileSystem 42] :=
  ⟨(CreateNFSVolume_filesystem_guard
      (scriptedApi ⟨0, 17, some (.errorsNew "export refused"), none, none, none⟩)
      (nfsstorage.zero.assignRequest examplePvc) 0 1 "ns1" _ rfl rfl (by decide)).2.1
      (.errorsNew "export refused") (by decide),
   ((CreateNFSVolume_filesystem_guard
      (scriptedApi ⟨0, 17, some (.errorsNew "export refused"), none, none, none⟩)
      (nfsstorage.zero.assignRequest examplePvc) 0 1 "ns1" _ rfl rfl (by decide)).2.2.2.2
      (.errorsNew "export refused") (by decide)).1 (by decide),
   ((CreateNFSVolume_filesystem_guard
      (scriptedApi ⟨42, 17, some (.errorsNew "export refused"), none, none, none⟩)
      (nfsstorage.zero.assignRequest examplePvc) 0 1 "ns1" _ rfl rfl (by decide)).2.2.2.2
      (.errorsNew "export refused") (by decide)).2 (by decide)⟩

/-- C22. `ControllerExpandVolume` of the exclusive strategy decodes only the
part of the identifier before the first `$$`. For a non-empty identifier and
a request with a capacity range: the split on `$$` always has a first
element, so the index 0 is in range; when the identifier is
`lead ++ "$$" ++ rest` and that `$$` is the first one, the first element is
`lead`; when the first element does not parse as a base-10 64-bit integer,
the response is empty (`CapacityBytes` 0) with a nil error, no gateway call
is made and the backend state is unchanged; and when the identifier is
`decimal(n) ++ "$$" ++ rest`, filesystem `n` is resized. -/
theorem nfs_ControllerExpandVolume_leading_part {σ : Type} (nfs : nfsstorage) (api : Api σ)
    (volumeID : String) (c limit : Int) (st : σ) (hne : volumeID ≠ "") :
    (∃ first tail, stringsSplit volumeID "$$" = first :: tail) ∧
    (∀ lead rest : String, stringsContains (lead ++ "$") "$$" = false →
      volumeID = lead ++ "$$" ++ rest →
      ∃ tail, stringsSplit volumeID "$$" = lead :: tail) ∧
    (∀ (first : String) (tail : List String), stringsSplit volumeID "$$" = first :: tail →
      (ParseInt first).2 ≠ none →
      (nfs.ControllerExpandVolume api ⟨volumeID, some ⟨c, limit⟩⟩ st).val
        = (some ⟨0, false⟩, none) ∧
      (nfs.ControllerExpandVolume api ⟨volumeID, some ⟨c, limit⟩⟩ st).calls = [] ∧
      (nfs.ControllerExpandVolume api ⟨volumeID, some ⟨c, limit⟩⟩ st).st = st) ∧
    (∀ (n : Int) (rest : String), -(2 ^ 63) ≤ n → n < 2 ^ 63 →
      volumeID = FormatInt n ++ "$$" ++ rest →
      (nfs.ControllerExpandVolume api ⟨volumeID, some ⟨c, limit⟩⟩ st).calls
        = [.UpdateFilesystem n ⟨0, 0, "", false, "", max c 1073741824⟩] ∧
      ((api.UpdateFilesystem n ⟨0, 0, "", false, "", max c 1073741824⟩ st).1 = none →
        (nfs.ControllerExpandVolume api ⟨volumeID, some ⟨c, limit⟩⟩ st).val
          = (some ⟨max c 1073741824, false⟩, none))) := by
  refine ⟨?_, ?_, ?_, ?_⟩
  · have hnil := stringsSplit_ne_nil volumeID "$$" (by decide)
    cases hs : stringsSplit volumeID "$$" with
    | nil => exact absurd hs hnil
    | cons first tail => exact ⟨first, tail, rfl⟩
  · intro lead rest hfirst hid
    rw [hid]
    exact stringsSplit_leading lead rest hfirst
  · intro first tail hsplit hbad
    have hsome : ¬ ((some ⟨c, limit⟩ : Option csi.CapacityRange) = none) := by simp
    unfold nfsstorage.ControllerExpandVolume
    simp only [hne, if_false, hsome, hsplit]
    split
    · exact ⟨rfl, rfl, rfl⟩
    · rename_i heq
      rw [heq] at hbad
      exact absurd rfl hbad
  · intro n rest h0 h1 hid
    obtain ⟨tail, htail⟩ := stringsSplit_leading (FormatInt n) rest
      (stringsContains_FormatInt_dollar n)
    rw [← hid] at htail
    obtain ⟨a, b, _⟩ := nfs_ControllerExpandVolume_decoded nfs api volumeID (FormatInt n) tail
      c limit st n hne htail (ParseInt_FormatInt_int64 n h0 h1)
    exact ⟨a, b⟩

/-- C22, on the identifiers `pvc-1$$42` (the leading part is not an integer:
empty response, nil error, no call) and `42$$nfs` (filesystem 42 is resized
to the requested 3000000000 bytes). -/
theorem nfs_ControllerExpandVolume_leading_part_witness :
    ((nfsstorage.zero.ControllerExpandVolume (scriptedDeleteApi ⟨[], none, 0, none, none, none⟩)
        ⟨"pvc-1$$42", some ⟨3000000000, 0⟩⟩ 0).val = (some ⟨0, false⟩, none) ∧
      (nfsstorage.zero.ControllerExpandVolume (scriptedDeleteApi ⟨[], none, 0, none, none, none⟩)
        ⟨"pvc-1$$42", some ⟨3000000000, 0⟩⟩ 0).calls = []) ∧
    (nfsstorage.zero.ControllerExpandVolume (scriptedDeleteApi ⟨[], none, 0, none, none, none⟩)
        ⟨"42$$nfs", some ⟨3000000000, 0⟩⟩ 0).calls
      = [.UpdateFilesystem 42 ⟨0, 0, "", false, "", max 3000000000 1073741824⟩] :=
  ⟨⟨((nfs_ControllerExpandVolume_leading_part nfsstorage.zero
        (scriptedDeleteApi ⟨[], none, 0, none, none, none⟩) "pvc-1$$42" 3000000000 0 0
        (by decide)).2.2.1 "pvc-1" ["42"] (by decide) (by decide)).1,
    ((nfs_ControllerExpandVolume_leading_part nfsstorage.zero
        (scriptedDeleteApi ⟨[], none, 0, none, none, none⟩) "pvc-1$$42" 3000000000 0 0
        (by decide)).2.2.1 "pvc-1" ["42"] (by decide) (by decide)).2.1⟩,
   ((nfs_ControllerExpandVolume_leading_part nfsstorage.zero
      (scriptedDeleteApi ⟨[], none, 0, none, none, none⟩) "42$$nfs" 3000000000 0 0
      (by decide)).2.2.2 42 "nfs" (by decide) (by decide) (by decide)).1⟩

end Infinibox
